import Mathlib

/-!
# hanabi-live server: game end conditions, turn timer and manager worker loop

A shallow embedding of
* `server/pkg/table/game.go` (`newGame`, `CheckEnd`, `CheckTimer`, `EndTimer`,
  `GetHandSize`, `GetMaxScore`),
* `server/pkg/sessions/requests.go` and `server/pkg/tables/requests.go`
  (`requestFuncMapInit`, `ListenForRequests`, `newRequest`),
* `server/pkg/commands/command_chat_pm.go` (`chatPM`),
* `server/pkg/httpmain/stats.go` (the tally of maximum scores in `stats`),
followed by theorems about them.

Conventions of the embedding.
* Go `int` values are `Int`.  The sum `stackLen + 1` and the product
  `len(Suits) * PointsPerSuit` are wrapped to 64 bits by `wrapInt64`; the
  counters of `GetMaxScore`, `GetSpecificCardNum` and `stats` and the hand
  sizes stay below the length of a slice and are not wrapped.
* A Go slice is a `List`; an index expression `xs[i]` is `goIndex xs i`, which
  is `none` where Go faults with "index out of range".
* A function that can fault returns `Option`; `none` is the fault.
* Pointers to players and cards are taken to be non-nil and are modelled by the
  value pointed to; the pointer `gp` of the turn timer, through which a player
  of the game is written, is the position of that player in `g.Players`.
* `constants.go`, the `variants` package and `variantReversibleCheckAllDead`
  are not part of the sources at hand.  They are parameters, gathered in `Env`
  and `Variant`: every theorem holds for all values of them unless it says
  otherwise.
-/

namespace Hanabi

/-! ## Go primitives -/

/-- Two's-complement wrap-around of a mathematical integer to a Go `int`
(64 bits). -/
def wrapInt64 (x : Int) : Int := (x + 2 ^ 63) % 2 ^ 64 - 2 ^ 63

/-- Go index expression `xs[i]`: `none` is the "index out of range" fault. -/
def goIndex {α : Type} (xs : List α) (i : Int) : Option α :=
  if i < 0 then none else xs[i.toNat]?

/-! ## Data model (`game.go`, lines 16-86) -/

/-- The fields of `options.Options` read by the embedded code. -/
structure Options where
  VariantName : String
  Speedrun : Bool
  AllOrNothing : Bool
  OneExtraCard : Bool
  OneLessCard : Bool
deriving DecidableEq, Repr

/-- A suit of a variant; only `Reversed` is read by the embedded code. -/
structure Suit where
  Name : String
  Reversed : Bool
deriving DecidableEq, Repr

/-- A variant (`variants.Variant`).  The package is not among the sources, so
the results of its methods `HasReversedSuits()`, `IsUpOrDown()` and
`GetAdjustedClueTokens(n)` are fields of the record: arbitrary, but fixed for
the variant. -/
structure Variant where
  Name : String
  Suits : List Suit
  MaxScore : Int
  HasReversedSuits : Bool
  IsUpOrDown : Bool
  GetAdjustedClueTokens : Int → Int

/-- A card of the deck, with the fields read by `CheckEnd` and
`GetSpecificCardNum`. -/
structure Card where
  SuitIndex : Int
  Rank : Int
  Discarded : Bool
  CannotBePlayed : Bool
deriving DecidableEq, Repr

/-- A player of a game (`gamePlayer`): seat index, name, remaining time and the
hand (a list of card orders). -/
structure GamePlayer where
  Index : Int
  Name : String
  Time : Int
  Hand : List Int
deriving DecidableEq, Repr

/-- A player's session; `Fake` tells a session made by `NewFakeSession`. -/
structure Session where
  UserID : Int
  Username : String
  Fake : Bool
deriving DecidableEq, Repr

/-- A player of a table, with the session pointer (`none` is `nil`). -/
structure TablePlayer where
  UserID : Int
  Name : String
  Session : Option Session
deriving DecidableEq, Repr

/-- The parent table of a game.  `addr` stands for the identity of the Go
object (tables are compared as pointers in `CheckTimer`). -/
structure Table where
  addr : Nat
  ID : Int
  Name : String
  Players : List TablePlayer
deriving DecidableEq, Repr

/-- The game state (`type game struct`).  `Table` and `Options` are the objects
behind the pointers `g.Table` and `g.Options` of the embedded functions; the
variant is looked up in `Env.variants`.  The time stamps, the action logs,
`extraOptions`, `CardIdentities` and `Tags` are left out: no embedded function
reads or writes them. -/
structure Game where
  Table : Table
  Options : Options
  Players : List GamePlayer
  Seed : String
  Deck : List Card
  DeckIndex : Int
  Stacks : List Int
  PlayStackDirections : List Int
  Turn : Int
  TurnsInverted : Bool
  ActivePlayerIndex : Int
  ClueTokens : Int
  Score : Int
  MaxScore : Int
  Strikes : Int
  LastClueTypeGiven : Int
  InvalidActionOccurred : Bool
  EndCondition : Int
  EndPlayer : Int
  EndTurn : Int
  StartedTimer : Bool
  Paused : Bool
  PausePlayerIndex : Int
  PauseCount : Int
  EfficiencyMod : Int
  Hypothetical : Bool
  HypoActions : List String
  HypoShowDrawnCards : Bool
deriving DecidableEq, Repr

/-- Everything the embedded code reads from outside `game.go`: the constants of
`constants.go`, the global `variants` map (the lookup is taken to succeed) and
the helper `variantReversibleCheckAllDead`, taken to be a function of the game
state that does not modify it. -/
structure Env where
  EndConditionInProgress : Int
  EndConditionNormal : Int
  EndConditionStrikeout : Int
  EndConditionTimeout : Int
  EndConditionTerminated : Int
  EndConditionSpeedrunFail : Int
  EndConditionIdleTimeout : Int
  EndConditionCharacterSoftlock : Int
  EndConditionAllOrNothingFail : Int
  EndConditionAllOrNothingSoftlock : Int
  MaxStrikeNum : Int
  ActionTypeEndGame : Int
  variants : String → Variant
  variantReversibleCheckAllDead : Game → Bool

/-! ## `CheckEnd` (`game.go`, lines 234-334) -/

/-- The scan at lines 311-327: `true` when the loops reach a card that makes
`CheckEnd` return false, i.e. some stack is not at 5 and the deck holds a copy
of its next rank that is neither discarded nor marked unplayable. -/
def playableCardRemains (stackLens : List Int) (deck : List Card) : Bool :=
  stackLens.enum.any fun (i, stackLen) =>
    if stackLen = 5 then false
    else
      let neededSuit : Int := i
      let neededRank : Int := wrapInt64 (stackLen + 1)
      deck.any fun c =>
        decide (c.SuitIndex = neededSuit ∧ c.Rank = neededRank ∧
          c.Discarded = false ∧ c.CannotBePlayed = false)

/-- Lines 288-334 of `CheckEnd`: the final turn, the maximum score and the
search for a card that can still be played.  Nothing here can fault. -/
def CheckEnd.finalRules (env : Env) (g : Game) : Bool × Game :=
  let variant := env.variants g.Options.VariantName
  -- Check to see if the final go-around has completed
  if g.Turn = g.EndTurn then
    (true, { g with EndCondition := env.EndConditionNormal })
  -- Check to see if the maximum score has been reached
  else if g.Score = g.MaxScore then
    (true, { g with EndCondition := env.EndConditionNormal })
  -- Check to see if there are any cards remaining that can be played on the stacks
  else if variant.HasReversedSuits = true then
    if env.variantReversibleCheckAllDead g = false then (false, g)
    else (true, { g with EndCondition := env.EndConditionNormal })
  else if playableCardRemains g.Stacks g.Deck = true then (false, g)
  -- If we got this far, nothing can be played
  else (true, { g with EndCondition := env.EndConditionNormal })

/-- The condition of the `if` at lines 275-277.  The operand
`g.Players[g.ActivePlayerIndex]` is evaluated only when
`g.Options.AllOrNothing` holds (short-circuit `&&`); `none` is its index
fault. -/
def CheckEnd.softlockGuard (env : Env) (g : Game) : Option Bool :=
  let variant := env.variants g.Options.VariantName
  if g.Options.AllOrNothing = true then
    match goIndex g.Players g.ActivePlayerIndex with
    | none => none
    | some p =>
      some (decide (p.Hand.length = 0 ∧ g.ClueTokens < variant.GetAdjustedClueTokens 1))
  else some false

/-- `CheckEnd` examines the game state and sets `EndCondition` to the
appropriate value, if any.  The result is the returned boolean and the game
state after the call; `none` is the index fault at `g.Players[...]`. -/
def CheckEnd (env : Env) (g : Game) : Option (Bool × Game) :=
  let variant := env.variants g.Options.VariantName
  -- Some ending conditions will already be set by the time we get here
  if g.EndCondition = env.EndConditionTimeout ∨
      g.EndCondition = env.EndConditionTerminated ∨
      g.EndCondition = env.EndConditionIdleTimeout ∨
      g.EndCondition = env.EndConditionCharacterSoftlock then
    some (true, g)
  -- Check for 3 strikes
  else if g.Strikes = env.MaxStrikeNum then
    some (true, { g with EndCondition := env.EndConditionStrikeout })
  -- In a speedrun, check to see if a perfect score can still be achieved
  else if g.Options.Speedrun = true ∧ g.MaxScore < variant.MaxScore then
    some (true, { g with EndCondition := env.EndConditionSpeedrunFail })
  -- In an "All or Nothing" game, check to see if a maximum score can still be reached
  else if g.Options.AllOrNothing = true ∧ g.MaxScore < variant.MaxScore then
    some (true, { g with EndCondition := env.EndConditionAllOrNothingFail })
  else
    -- In an "All or Nothing game", handle the case where a player would have to
    -- discard without any cards in their hand
    match CheckEnd.softlockGuard env g with
    | none => none
    | some true =>
      match goIndex g.Players g.ActivePlayerIndex with
      | none => none
      | some p =>
        some (true, { g with EndCondition := env.EndConditionAllOrNothingSoftlock,
                             EndPlayer := p.Index })
    | some false => some (CheckEnd.finalRules env g)

/-! ## `CheckTimer` and `EndTimer` (`game.go`, lines 156-232) -/

/-- The fields of `CommandData` that `EndTimer` fills in (`Type_` is the Go
field `Type`). -/
structure CommandData where
  TableID : Int
  Type_ : Int
  Target : Int
  Value : Int
  NoTableLock : Bool
deriving DecidableEq, Repr

/-- Modelled from the spec: `NewFakeSession` is not among the sources; it makes
the placeholder session that stands in for a user without a live connection. -/
def NewFakeSession (userID : Int) (name : String) : Session :=
  { UserID := userID, Username := name, Fake := true }

/-- What a turn timer can touch: the game, whose players are the objects that
pointers such as `gp` point to, and the calls of `commandAction` made so far
(oldest first), each with its session and command data. -/
structure TimerState where
  game : Game
  submitted : List (Session × CommandData)
deriving DecidableEq, Repr

/-- How a run of the timer ends: the state it leaves behind, and whether it
ended in a runtime fault (the writes made before the fault are in the state). -/
structure TimerRun where
  state : TimerState
  faulted : Bool
deriving DecidableEq, Repr

/-- `EndTimer` is called when a player has run out of time: it zeroes the time
of the player, finds the session of the player (a fake one when there is none)
and submits the end-game action with the value Timeout.

The pointer `gp` is given by the position in `g.Players` of the player it
points to, so that the write `gp.Time = 0` lands in the game.  A position
outside the list stands for the nil pointer: the run faults at `gp.Name`
(line 208) before anything is written.  The other fault is the index fault at
`t.Players[gp.Index]` (line 214), after the time was zeroed. -/
def EndTimer (env : Env) (w : TimerState) (gp : Nat) : TimerRun :=
  let g := w.game
  let t := g.Table
  match g.Players[gp]? with
  | none => { state := w, faulted := true }
  | some player =>
    -- Adjust the final player's time
    let g := { g with Players := g.Players.set gp { player with Time := 0 } }
    -- Get the session of this player
    match goIndex t.Players player.Index with
    | none => { state := { game := g, submitted := w.submitted }, faulted := true }
    | some p =>
      let s := match p.Session with
        | some s => s
        | none => NewFakeSession p.UserID p.Name
      -- End the game
      { state :=
          { game := g
            submitted := w.submitted ++
              [(s, { TableID := t.ID, Type_ := env.ActionTypeEndGame, Target := player.Index,
                     Value := env.EndConditionTimeout, NoTableLock := true })] }
        faulted := false }

/-- `CheckTimer`, from the moment the timer wakes up.  `getTableAndLock` is the
table registry at that moment (the function is not among the sources): it maps
a table ID to the table registered under it, if any.  Tables are compared as
pointers, that is by `addr`.  Every `return` of the revalidation leaves the
state as it was. -/
def CheckTimer (env : Env) (getTableAndLock : Int → Option Table) (w : TimerState)
    (turn : Int) (pauseCount : Int) (gp : Nat) : TimerRun :=
  let g := w.game
  let t := g.Table
  -- Check to see if the table still exists
  match getTableAndLock t.ID with
  | none => { state := w, faulted := false }
  | some t2 =>
    if t.addr ≠ t2.addr then { state := w, faulted := false }
    -- Check to see if we have made a move in the meanwhile
    else if turn ≠ g.Turn then { state := w, faulted := false }
    -- Check to see if the game is currently paused
    else if g.Paused = true then { state := w, faulted := false }
    -- Check to see if the game was paused while we were sleeping
    else if pauseCount ≠ g.PauseCount then { state := w, faulted := false }
    -- Check to see if the game ended already
    else if g.EndCondition > env.EndConditionInProgress then { state := w, faulted := false }
    else EndTimer env w gp

/-! ## The worker loop of the managers (`sessions/requests.go`,
`tables/requests.go`) -/

/-- A request: its type and its data (`type request struct`, identical in both
packages). -/
structure request (δ : Type) where
  reqType : Int
  data : δ
deriving DecidableEq, Repr

/-- What the worker does for one received request: it calls the registered
function with the data of the request, or logs the invalid request type. -/
inductive WorkerEvent (φ δ : Type) where
  | call (requestFunc : φ) (data : δ)
  | logError (reqType : Int)
deriving DecidableEq, Repr

/-- The outcome of running the worker on a channel that holds a finite queue:
the events in the order they happened, whether the loop was left (`break`) or
is waiting on the empty channel, and the requests never received. -/
structure WorkerRun (φ δ : Type) where
  events : List (WorkerEvent φ δ)
  exited : Bool
  unreceived : List (request δ)
deriving DecidableEq, Repr

namespace sessions

def requestTypeChatPM : Int := 0
def requestTypeDelete : Int := 1
def requestTypeNew : Int := 2
def requestTypeNotifyAllChat : Int := 3
def requestTypeNotifyAllError : Int := 4
def requestTypeNotifyAllTable : Int := 5
def requestTypeNotifyAllTableGone : Int := 6
def requestTypeNotifyChatListFromTable : Int := 7
def requestTypeNotifyChatServer : Int := 8
def requestTypeNotifyChatServerPM : Int := 9
def requestTypeNotifyChatTyping : Int := 10
def requestTypeNotifyError : Int := 11
def requestTypeNotifyFriends : Int := 12
def requestTypeNotifyGame : Int := 13
def requestTypeNotifyJoined : Int := 14
def requestTypeNotifyNote : Int := 15
def requestTypeNotifySoundLobby : Int := 16
def requestTypeNotifySpectators : Int := 17
def requestTypeNotifyWarning : Int := 18
def requestTypePrint : Int := 19
def requestTypeSetFriend : Int := 20
def requestTypeSetStatus : Int := 21
def requestTypeShutdown : Int := 22

/-- `ListenForRequests` of the sessions manager, run on the queue held by the
channel `m.requests` (head first).  `requestFuncMap` is the Go map: `none` is
a missing key. -/
def ListenForRequests {φ δ : Type} (requestFuncMap : Int → Option φ) :
    List (request δ) → WorkerRun φ δ
  | [] => { events := [], exited := false, unreceived := [] }
  | req :: rest =>
    if req.reqType = requestTypeShutdown then
      { events := [], exited := true, unreceived := rest }
    else
      let next := ListenForRequests requestFuncMap rest
      match requestFuncMap req.reqType with
      | some requestFunc =>
        { next with events := WorkerEvent.call requestFunc req.data :: next.events }
      | none =>
        { next with events := WorkerEvent.logError req.reqType :: next.events }

end sessions

namespace tables

def requestTypeDisconnectUser : Int := 0
def requestTypeGetTable : Int := 1
def requestTypeGetTables : Int := 2
def requestTypeGetUserTables : Int := 3
def requestTypeJoin : Int := 4
def requestTypeLeave : Int := 5
def requestTypeNewReplay : Int := 6
def requestTypeNewTable : Int := 7
def requestTypePrint : Int := 8
def requestTypeSpectate : Int := 9
def requestTypeUnspectate : Int := 10
def requestTypeShutdown : Int := 11

/-- `ListenForRequests` of the tables manager, run on the queue held by the
channel `m.requests` (head first).  `requestFuncMap` is the Go map: `none` is
a missing key. -/
def ListenForRequests {φ δ : Type} (requestFuncMap : Int → Option φ) :
    List (request δ) → WorkerRun φ δ
  | [] => { events := [], exited := false, unreceived := [] }
  | req :: rest =>
    if req.reqType = requestTypeShutdown then
      { events := [], exited := true, unreceived := rest }
    else
      let next := ListenForRequests requestFuncMap rest
      match requestFuncMap req.reqType with
      | some requestFunc =>
        { next with events := WorkerEvent.call requestFunc req.data :: next.events }
      | none =>
        { next with events := WorkerEvent.logError req.reqType :: next.events }

end tables


/-! ## Submitting a request (`newRequest` of `sessions/requests.go` and
`tables/requests.go`) -/

/-- The part of a manager that `newRequest` touches: its name, the channel
`requests` as the queue of the requests sent and not yet received (head first;
the channel is taken to have room, so a send does not block) and the flag
`requestsClosed`. -/
structure Manager (δ : Type) where
  name : String
  requests : List (request δ)
  requestsClosed : Bool
deriving DecidableEq, Repr

namespace sessions

/-- `newRequest` of the sessions manager.  The result is the returned error
(`none` is `nil`) and the manager after the call. -/
def newRequest {δ : Type} (m : Manager δ) (reqType : Int) (data : δ) :
    Option String × Manager δ :=
  if m.requestsClosed = true then
    (some (m.name ++ " manager is closed to new requests"), m)
  else
    (none, { m with requests := m.requests ++ [{ reqType := reqType, data := data }] })

/-- The methods of the sessions manager that `requestFuncMapInit` registers
(their bodies are not among the sources). -/
inductive requestFunc where
  | chatPM
  | delete
  | new
  | notifyAllChat
  | notifyAllError
  | notifyAllTable
  | notifyAllTableGone
  | notifyChatListFromTable
  | notifyChatServer
  | notifyChatServerPM
  | notifyChatTyping
  | notifyError
  | notifyFriends
  | notifyGame
  | notifyJoined
  | notifyNote
  | notifySoundLobby
  | notifySpectators
  | notifyWarning
  | print
  | setStatus
  | setFriend
deriving DecidableEq, Repr

/-- The Go map assignment `requestFuncMap[reqType] = f`. -/
def mapAssign (requestFuncMap : Int → Option requestFunc) (reqType : Int)
    (f : requestFunc) : Int → Option requestFunc :=
  fun key => if key = reqType then some f else requestFuncMap key

/-- `requestFuncMapInit` of the sessions manager, as a function of the map
before the call. -/
def requestFuncMapInit (requestFuncMap : Int → Option requestFunc) :
    Int → Option requestFunc :=
  let m := mapAssign requestFuncMap requestTypeChatPM requestFunc.chatPM
  let m := mapAssign m requestTypeDelete requestFunc.delete
  let m := mapAssign m requestTypeNew requestFunc.new
  let m := mapAssign m requestTypeNotifyAllChat requestFunc.notifyAllChat
  let m := mapAssign m requestTypeNotifyAllError requestFunc.notifyAllError
  let m := mapAssign m requestTypeNotifyAllTable requestFunc.notifyAllTable
  let m := mapAssign m requestTypeNotifyAllTableGone requestFunc.notifyAllTableGone
  let m := mapAssign m requestTypeNotifyChatListFromTable requestFunc.notifyChatListFromTable
  let m := mapAssign m requestTypeNotifyChatServer requestFunc.notifyChatServer
  let m := mapAssign m requestTypeNotifyChatServerPM requestFunc.notifyChatServerPM
  let m := mapAssign m requestTypeNotifyChatTyping requestFunc.notifyChatTyping
  let m := mapAssign m requestTypeNotifyError requestFunc.notifyError
  let m := mapAssign m requestTypeNotifyFriends requestFunc.notifyFriends
  let m := mapAssign m requestTypeNotifyGame requestFunc.notifyGame
  let m := mapAssign m requestTypeNotifyJoined requestFunc.notifyJoined
  let m := mapAssign m requestTypeNotifyNote requestFunc.notifyNote
  let m := mapAssign m requestTypeNotifySoundLobby requestFunc.notifySoundLobby
  let m := mapAssign m requestTypeNotifySpectators requestFunc.notifySpectators
  let m := mapAssign m requestTypeNotifyWarning requestFunc.notifyWarning
  let m := mapAssign m requestTypePrint requestFunc.print
  let m := mapAssign m requestTypeSetStatus requestFunc.setStatus
  let m := mapAssign m requestTypeSetFriend requestFunc.setFriend
  m

/-- The request types declared in the `const` block of `sessions/requests.go`,
in the order of declaration. -/
def declaredRequestTypes : List Int :=
  [requestTypeChatPM, requestTypeDelete, requestTypeNew, requestTypeNotifyAllChat,
   requestTypeNotifyAllError, requestTypeNotifyAllTable, requestTypeNotifyAllTableGone,
   requestTypeNotifyChatListFromTable, requestTypeNotifyChatServer,
   requestTypeNotifyChatServerPM, requestTypeNotifyChatTyping, requestTypeNotifyError,
   requestTypeNotifyFriends, requestTypeNotifyGame, requestTypeNotifyJoined,
   requestTypeNotifyNote, requestTypeNotifySoundLobby, requestTypeNotifySpectators,
   requestTypeNotifyWarning, requestTypePrint, requestTypeSetFriend, requestTypeSetStatus,
   requestTypeShutdown]

end sessions

namespace tables

/-- `newRequest` of the tables manager.  The result is the returned error
(`none` is `nil`) and the manager after the call. -/
def newRequest {δ : Type} (m : Manager δ) (reqType : Int) (data : δ) :
    Option String × Manager δ :=
  if m.requestsClosed = true then
    (some (m.name ++ " manager is closed to new requests"), m)
  else
    (none, { m with requests := m.requests ++ [{ reqType := reqType, data := data }] })

/-- The methods of the tables manager that `requestFuncMapInit` registers
(their bodies are not among the sources). -/
inductive requestFunc where
  | disconnectUser
  | getTable
  | getTables
  | getUserTables
  | join
  | leave
  | newReplay
  | newTable
  | print
  | spectate
  | unspectate
deriving DecidableEq, Repr

/-- The Go map assignment `requestFuncMap[reqType] = f`. -/
def mapAssign (requestFuncMap : Int → Option requestFunc) (reqType : Int)
    (f : requestFunc) : Int → Option requestFunc :=
  fun key => if key = reqType then some f else requestFuncMap key

/-- `requestFuncMapInit` of the tables manager, as a function of the map before
the call. -/
def requestFuncMapInit (requestFuncMap : Int → Option requestFunc) :
    Int → Option requestFunc :=
  let m := mapAssign requestFuncMap requestTypeDisconnectUser requestFunc.disconnectUser
  let m := mapAssign m requestTypeGetTable requestFunc.getTable
  let m := mapAssign m requestTypeGetTables requestFunc.getTables
  let m := mapAssign m requestTypeGetUserTables requestFunc.getUserTables
  let m := mapAssign m requestTypeJoin requestFunc.join
  let m := mapAssign m requestTypeLeave requestFunc.leave
  let m := mapAssign m requestTypeNewReplay requestFunc.newReplay
  let m := mapAssign m requestTypeNewTable requestFunc.newTable
  let m := mapAssign m requestTypePrint requestFunc.print
  let m := mapAssign m requestTypeSpectate requestFunc.spectate
  let m := mapAssign m requestTypeUnspectate requestFunc.unspectate
  m

/-- The request types declared in the `const` block of `tables/requests.go`,
in the order of declaration. -/
def declaredRequestTypes : List Int :=
  [requestTypeDisconnectUser, requestTypeGetTable, requestTypeGetTables,
   requestTypeGetUserTables, requestTypeJoin, requestTypeLeave, requestTypeNewReplay,
   requestTypeNewTable, requestTypePrint, requestTypeSpectate, requestTypeUnspectate,
   requestTypeShutdown]

end tables

/-! ## The `chatPM` command (`commands/command_chat_pm.go`) -/

namespace commands

/-- The data of the `chatPM` command (`type chatPMData struct`). -/
structure chatPMData where
  Msg : String
  Recipient : String
deriving DecidableEq, Repr

/-- The fields of `types.SessionData` that the handler reads. -/
structure SessionData where
  UserID : Int
  Username : String
deriving DecidableEq, Repr

/-- The payload `commandData`, by what `json.Unmarshal` makes of it when the
target is a `*chatPMData`:
* `invalid`: the bytes are not a JSON text;
* `wrongType`: a JSON text that is a number, string, boolean or array, or an
  object whose `msg` or `recipient` is neither a string nor null;
* `null`: the JSON text `null`;
* `object msg recipient`: a JSON object with these values for `msg` and
  `recipient`, the empty string standing for a field that is missing or
  null. -/
inductive Payload where
  | invalid
  | wrongType
  | null
  | object (msg : String) (recipient : String)
deriving DecidableEq, Repr

/-- The call `json.Unmarshal(commandData, &d)` with `d` of type `*chatPMData`,
after the documentation of Go's `encoding/json`: a syntax error or a type
mismatch is returned as an error; "the JSON null value unmarshals into an
interface, map, pointer, or slice by setting that Go value to nil", without an
error; an object is decoded into a fresh `chatPMData`.  `ok none` is `d = nil`. -/
def jsonUnmarshal : Payload → Except String (Option chatPMData)
  | Payload.invalid => Except.error "invalid character"
  | Payload.wrongType => Except.error "cannot unmarshal"
  | Payload.null => Except.ok none
  | Payload.object msg recipient => Except.ok (some { Msg := msg, Recipient := recipient })

/-- The calls that the handler makes on its collaborators.  `chatCheckMuted` is
a method that is not among the sources: its result is a parameter of the
handler, and what it does itself is behind the event `chatCheckMuted`. -/
inductive Effect where
  | NotifyError (userID : Int) (msg : String)
  | chatCheckMuted (sessionData : SessionData)
  | ChatPM (userID : Int) (username : String) (msg : String) (recipient : String)
deriving DecidableEq, Repr

/-- A run of the handler: the calls made, in order, and whether the run ended
in a fault (a nil pointer dereference). -/
structure HandlerRun where
  effects : List Effect
  faulted : Bool
deriving DecidableEq, Repr

/-- `chatPM` is sent when a user sends a private message. -/
def chatPM (chatCheckMuted : SessionData → Bool) (sessionData : SessionData)
    (commandData : Payload) : HandlerRun :=
  match jsonUnmarshal commandData with
  | Except.error _ =>
    let msg := "Your \x22chatPM\x22 command contained invalid data."
    { effects := [Effect.NotifyError sessionData.UserID msg], faulted := false }
  | Except.ok d =>
    if chatCheckMuted sessionData = true then
      { effects := [Effect.chatCheckMuted sessionData], faulted := false }
    else
      match d with
      | none =>
        -- `d.Msg` with `d == nil`
        { effects := [Effect.chatCheckMuted sessionData], faulted := true }
      | some d =>
        { effects := [Effect.chatCheckMuted sessionData,
                      Effect.ChatPM sessionData.UserID sessionData.Username d.Msg d.Recipient],
          faulted := false }

end commands

/-! ## `newGame` (`game.go`, lines 88-148) -/

/-- The constants of `constants.go` and of the `variants` package that `newGame`
reads; the files are not among the sources, so the values are parameters. -/
structure Constants where
  MaxClueNum : Int
  PointsPerSuit : Int
  StackDirectionUp : Int
  StackDirectionDown : Int
deriving DecidableEq, Repr

/-- The table handed to `newGame` (`t *table`): the table as above, with its
options and its variant. -/
structure table extends Table where
  Options : Options
  Variant : Variant

/-- The loop of lines 138-144: for every suit, by index, the direction of its
play stack is set to Down if the suit is reversed and to Up if not. -/
def newGame.reverseStacks (k : Constants) (suits : List Suit)
    (playStackDirections : List Int) : List Int :=
  suits.enum.foldl
    (fun dirs (p : Nat × Suit) =>
      if p.2.Reversed = true then dirs.set p.1 k.StackDirectionDown
      else dirs.set p.1 k.StackDirectionUp)
    playStackDirections

/-- `newGame` makes the game of a table.  The product
`len(t.Variant.Suits) * constants.PointsPerSuit` is a product of Go `int`s.
The pointer `variant` of the game is not kept in the model: the embedded
functions look the variant up by name. -/
def newGame (k : Constants) (t : table) : Game :=
  let g : Game :=
    { Table := t.toTable
      Options := t.Options
      Players := []
      Seed := ""
      Deck := []
      DeckIndex := 0
      Stacks := List.replicate t.Variant.Suits.length 0
      PlayStackDirections := List.replicate t.Variant.Suits.length 0
      Turn := 0
      TurnsInverted := false
      ActivePlayerIndex := 0
      ClueTokens := t.Variant.GetAdjustedClueTokens k.MaxClueNum
      Score := 0
      MaxScore := wrapInt64 ((t.Variant.Suits.length : Int) * k.PointsPerSuit)
      Strikes := 0
      LastClueTypeGiven := -1
      InvalidActionOccurred := false
      EndCondition := 0
      EndPlayer := -1
      EndTurn := -1
      StartedTimer := false
      Paused := false
      PausePlayerIndex := -1
      PauseCount := 0
      EfficiencyMod := 0
      Hypothetical := false
      HypoActions := []
      HypoShowDrawnCards := false }
  -- Reverse the stack direction of reversed suits,
  -- except on the "Up or Down" variant that uses the "Undecided" direction
  if t.Variant.HasReversedSuits = true ∧ ¬ t.Variant.IsUpOrDown = true then
    { g with PlayStackDirections :=
        newGame.reverseStacks k t.Variant.Suits g.PlayStackDirections }
  else g

/-! ## Miscellaneous functions (`game.go`, lines 344-415) -/

/-- `GetHandSizeForNormalGame`: the hand size by the number of players. -/
def GetHandSizeForNormalGame (g : Game) : Int :=
  let numPlayers := g.Players.length
  if numPlayers = 2 ∨ numPlayers = 3 then 5
  else if numPlayers = 4 ∨ numPlayers = 5 then 4
  else if numPlayers = 6 then 3
  else 4

/-- `GetHandSize`: the hand size of a normal game, adjusted by the options. -/
def GetHandSize (g : Game) : Int :=
  let handSize := GetHandSizeForNormalGame g
  let handSize := if g.Options.OneExtraCard = true then handSize + 1 else handSize
  let handSize := if g.Options.OneLessCard = true then handSize - 1 else handSize
  handSize

/-- `GetSpecificCardNum` returns the total cards in the deck of the specified
suit and rank as well as how many of those that have been already discarded.
(The counters stay below the length of the deck, so no wrap-around is
modelled.) -/
def GetSpecificCardNum (g : Game) (suitIndex : Int) (rank : Int) : Int × Int :=
  g.Deck.foldl
    (fun (counts : Int × Int) c =>
      if c.SuitIndex = suitIndex ∧ c.Rank = rank then
        (counts.1 + 1, if c.Discarded = true then counts.2 + 1 else counts.2)
      else counts)
    (0, 0)

/-- The loop over the ranks of one suit at lines 386-394, run on the ranks
still to visit: the score goes up by one for each rank that has a copy not yet
discarded, until a rank has none (`break`). -/
def GetMaxScore.rankLoop (g : Game) (suit : Int) : List Int → Int → Int
  | [], maxScore => maxScore
  | rank :: ranks, maxScore =>
    -- Search through the deck to see if all the copies of this card are discarded already
    let counts := GetSpecificCardNum g suit rank
    if counts.1 > counts.2 then GetMaxScore.rankLoop g suit ranks (maxScore + 1)
    else maxScore

/-- `GetMaxScore` calculates what the maximum score is, accounting for stacks
that cannot be completed due to discarded cards.  The helper
`variantReversibleGetMaxScore` is not among the sources and is a parameter.
(The score stays below five times the number of stacks, so no wrap-around is
modelled.) -/
def GetMaxScore (env : Env) (variantReversibleGetMaxScore : Game → Int) (g : Game) : Int :=
  let variant := env.variants g.Options.VariantName
  if variant.HasReversedSuits = true then variantReversibleGetMaxScore g
  else
    (List.range g.Stacks.length).foldl
      (fun (maxScore : Int) (suit : Nat) =>
        GetMaxScore.rankLoop g (suit : Int) [1, 2, 3, 4, 5] maxScore)
      0

/-! ## The tally of maximum scores (`httpmain/stats.go`, lines 101-133) -/

namespace httpmain

/-- The field of `bestscore.BestScore` that `stats` reads (the package is not
among the sources). -/
structure BestScore where
  Score : Int
deriving DecidableEq, Repr

/-- The fields of `models.VariantStatsRow` that `stats` reads, but for the
floating-point average (the package is not among the sources). -/
structure VariantStatsRow where
  NumGames : Int
  BestScores : List BestScore
  NumMaxScores : Int
  NumStrikeouts : Int
deriving DecidableEq, Repr

/-- A variant as `stats` reads it: the variant above with its field `ID`, the
key of the statistics of the variant in `statsMap`. -/
structure VariantWithID extends Variant where
  ID : Int

/-- The two ways in which `stats` stops before its loops are through:
`GetVariant` returns an error (the handler answers with an error page and
returns), or `numMaxScoresPerType[j]` is out of range (a runtime fault). -/
inductive StatsAbort where
  | variantError (name : String)
  | indexOutOfRange (j : Nat)
deriving DecidableEq, Repr

/-- The two counters of `stats`.  (They count entries of slices and are not
wrapped.) -/
structure Tally where
  numMaxScores : Int
  numMaxScoresPerType : List Int
deriving DecidableEq, Repr

/-- The loop of lines 128-133 over the best scores of one variant, each with its
index `j`. -/
def stats.bestScoresLoop (maxScore : Int) :
    List (Nat × BestScore) → Tally → Except StatsAbort Tally
  | [], tally => Except.ok tally
  | (j, bestScore) :: rest, tally =>
    if bestScore.Score = maxScore then
      -- numMaxScores++
      let numMaxScores := tally.numMaxScores + 1
      -- numMaxScoresPerType[j]++
      match tally.numMaxScoresPerType[j]? with
      | none => Except.error (StatsAbort.indexOutOfRange j)
      | some count =>
        stats.bestScoresLoop maxScore rest
          { numMaxScores := numMaxScores
            numMaxScoresPerType := tally.numMaxScoresPerType.set j (count + 1) }
    else stats.bestScoresLoop maxScore rest tally

/-- The loop of lines 106-167 over the names of the variants, as far as the two
counters go.  `GetVariant` is the lookup of a variant by name (`none` is its
error) and `statsMap` the Go map from the ID of a variant to its statistics
(`none` is a missing key). -/
def stats.variantsLoop (k : Constants) (GetVariant : String → Option VariantWithID)
    (statsMap : Int → Option VariantStatsRow) :
    List String → Tally → Except StatsAbort Tally
  | [], tally => Except.ok tally
  | name :: names, tally =>
    match GetVariant name with
    | none => Except.error (StatsAbort.variantError name)
    | some variant =>
      let maxScore := wrapInt64 ((variant.Suits.length : Int) * k.PointsPerSuit)
      match statsMap variant.ID with
      | some statsRow =>
        -- Someone has played at least one game in this particular variant
        -- (`statsRow` is the Go variable `stats`)
        match stats.bestScoresLoop maxScore statsRow.BestScores.enum tally with
        | Except.error e => Except.error e
        | Except.ok tally => stats.variantsLoop k GetVariant statsMap names tally
      | none => stats.variantsLoop k GetVariant statsMap names tally

/-- The counters `numMaxScores` and `numMaxScoresPerType` that `stats` hands
to the template, from the names of the variants (`GetVariantNames()`), the
lookup `GetVariant` and the map `statsMap` read from the database; the calls
before line 101 are taken to have succeeded. -/
def stats (k : Constants) (GetVariantNames : List String)
    (GetVariant : String → Option VariantWithID)
    (statsMap : Int → Option VariantStatsRow) : Except StatsAbort Tally :=
  stats.variantsLoop k GetVariant statsMap GetVariantNames
    { numMaxScores := 0, numMaxScoresPerType := List.replicate 5 0 }

end httpmain

/-! ## Test data

Concrete inputs on which the theorems below are instantiated. -/

/-- A numbering of the constants (all end conditions distinct, three strikes),
a single five-suit variant without reversed suits whatever the name looked up,
and a reversed-suit helper that reports every card dead. -/
def testEnv : Env where
  EndConditionInProgress := 0
  EndConditionNormal := 1
  EndConditionStrikeout := 2
  EndConditionTimeout := 3
  EndConditionTerminated := 4
  EndConditionSpeedrunFail := 5
  EndConditionIdleTimeout := 6
  EndConditionCharacterSoftlock := 7
  EndConditionAllOrNothingFail := 8
  EndConditionAllOrNothingSoftlock := 9
  MaxStrikeNum := 3
  ActionTypeEndGame := 4
  variants := fun _ =>
    { Name := "No Variant", Suits := [], MaxScore := 25, HasReversedSuits := false,
      IsUpOrDown := false, GetAdjustedClueTokens := fun n => n }
  variantReversibleCheckAllDead := fun _ => true

/-- A two-player game in progress at turn 2: nothing played, one playable red 1
left in the deck, eight clue tokens, no strike. -/
def testGame : Game where
  Table := { addr := 1, ID := 7, Name := "table", Players :=
    [{ UserID := 10, Name := "alice", Session := none },
     { UserID := 11, Name := "bob", Session := some { UserID := 11, Username := "bob", Fake := false } }] }
  Options := { VariantName := "No Variant", Speedrun := false, AllOrNothing := false,
               OneExtraCard := false, OneLessCard := false }
  Players := [{ Index := 0, Name := "alice", Time := 60, Hand := [0, 1] },
              { Index := 1, Name := "bob", Time := 60, Hand := [] }]
  Seed := "seed"
  Deck := [{ SuitIndex := 0, Rank := 1, Discarded := false, CannotBePlayed := false },
           { SuitIndex := 0, Rank := 2, Discarded := true, CannotBePlayed := false }]
  DeckIndex := 2
  Stacks := [0, 0, 0, 0, 0]
  PlayStackDirections := [0, 0, 0, 0, 0]
  Turn := 2
  TurnsInverted := false
  ActivePlayerIndex := 0
  ClueTokens := 8
  Score := 0
  MaxScore := 25
  Strikes := 0
  LastClueTypeGiven := -1
  InvalidActionOccurred := false
  EndCondition := 0
  EndPlayer := -1
  EndTurn := -1
  StartedTimer := true
  Paused := false
  PausePlayerIndex := -1
  PauseCount := 0
  EfficiencyMod := 0
  Hypothetical := false
  HypoActions := []
  HypoShowDrawnCards := false

/-- The test game after three failed plays, in a speedrun whose perfect score is
already out of reach and whose final turn has come. -/
def threeStrikesGame : Game :=
  { testGame with
    Options := { testGame.Options with Speedrun := true, AllOrNothing := true }
    Strikes := 3, MaxScore := 20, Score := 20, Turn := 5, EndTurn := 5 }

/-- The test game with an empty deck: no card can be played any more. -/
def emptyDeckGame : Game := { testGame with Deck := [] }

/-- A state marked as ended normally that also carries three strikes. -/
def normalEndThreeStrikesGame : Game :=
  { testGame with EndCondition := 1, Strikes := 3 }

/-- A state terminated by a player, on its final turn. -/
def terminatedGame : Game :=
  { testGame with EndCondition := 4, Turn := 5, EndTurn := 5 }

/-- A state ended by the turn timer that also carries three strikes. -/
def timedOutGame : Game :=
  { testGame with EndCondition := 3, EndPlayer := 1, Strikes := 3 }

/-- An all-or-nothing game: it is the turn of bob, who has no card, no clue
token is left, the final turn has come and the score is the maximum. -/
def softlockGame : Game :=
  { testGame with
    Options := { testGame.Options with AllOrNothing := true }
    ActivePlayerIndex := 1, ClueTokens := 0, Turn := 5, EndTurn := 5,
    Score := 25 }

/-- A speedrun in which a perfect score is out of reach. -/
def speedrunGame : Game :=
  { testGame with
    Options := { testGame.Options with Speedrun := true, AllOrNothing := true }
    MaxScore := 24 }

/-- An all-or-nothing game in which a perfect score is out of reach. -/
def allOrNothingGame : Game :=
  { testGame with
    Options := { testGame.Options with AllOrNothing := true }
    MaxScore := 24 }

/-- An ordinary game in which a perfect score is out of reach. -/
def imperfectGame : Game := { testGame with MaxScore := 24 }

/-- The test game on its final turn, a playable card still in the deck. -/
def finalTurnGame : Game := { testGame with Turn := 5, EndTurn := 5 }

/-- The registry that holds the table of the test game, and nothing else. -/
def testRegistry (id : Int) : Option Table :=
  if id = testGame.Table.ID then some testGame.Table else none

/-- The timer state over the test game; nothing submitted yet.  Bob is the
player at position 1 of the game, alice the one at position 0. -/
def testTimerState : TimerState :=
  { game := testGame, submitted := [] }

/-- The same timer state when the game has moved on to turn 3. -/
def turnThreeTimerState : TimerState :=
  { testTimerState with game := { testGame with Turn := 3 } }

/-- A map with functions registered for the request types 0 and 1 only, each
named by a string. -/
def testFuncMap (reqType : Int) : Option String :=
  if reqType = 0 then some "first" else if reqType = 1 then some "second" else none

/-- A sessions or tables manager with one request waiting, open to requests. -/
def openManager : Manager String :=
  { name := "sessions", requests := [{ reqType := 3, data := "hello" }],
    requestsClosed := false }

/-- The same manager once closed to new requests. -/
def closedManager : Manager String := { openManager with requestsClosed := true }

/-- The session of alice. -/
def aliceSession : commands.SessionData := { UserID := 10, Username := "alice" }

/-- Values for the constants read by `newGame`. -/
def testConstants : Constants :=
  { MaxClueNum := 8, PointsPerSuit := 5, StackDirectionUp := 1, StackDirectionDown := 2 }

/-- A table of a variant with three suits, the second one reversed. -/
def reversedTable : table :=
  { testGame.Table with
    Options := { testGame.Options with VariantName := "Reversed (3 Suits)" }
    Variant :=
      { Name := "Reversed (3 Suits)"
        Suits := [{ Name := "Red", Reversed := false }, { Name := "Blue", Reversed := true },
                  { Name := "Green", Reversed := false }]
        MaxScore := 15, HasReversedSuits := true, IsUpOrDown := false
        GetAdjustedClueTokens := fun n => n } }

/-- A table of a variant with five ordinary suits. -/
def plainTable : table :=
  { testGame.Table with
    Options := testGame.Options
    Variant :=
      { Name := "No Variant"
        Suits := [{ Name := "Red", Reversed := false }, { Name := "Yellow", Reversed := false },
                  { Name := "Green", Reversed := false }, { Name := "Blue", Reversed := false },
                  { Name := "Purple", Reversed := false }]
        MaxScore := 25, HasReversedSuits := false, IsUpOrDown := false
        GetAdjustedClueTokens := fun n => n } }

/-- A game with two stacks: suit 0 has live copies of ranks 1 and 2 and only a
discarded 3; suit 1 has a live 1 and no 2. -/
def twoSuitGame : Game :=
  { testGame with
    Stacks := [0, 0]
    Deck := [{ SuitIndex := 0, Rank := 1, Discarded := false, CannotBePlayed := false },
             { SuitIndex := 0, Rank := 2, Discarded := true, CannotBePlayed := false },
             { SuitIndex := 0, Rank := 2, Discarded := false, CannotBePlayed := false },
             { SuitIndex := 0, Rank := 3, Discarded := true, CannotBePlayed := false },
             { SuitIndex := 0, Rank := 4, Discarded := false, CannotBePlayed := false },
             { SuitIndex := 1, Rank := 1, Discarded := false, CannotBePlayed := false },
             { SuitIndex := 1, Rank := 3, Discarded := false, CannotBePlayed := false }] }

/-- A freshly made all-or-nothing game is made from this table. -/
def allOrNothingTable : table :=
  { plainTable with Options := { plainTable.Options with AllOrNothing := true } }

/-- Two variants: "No Variant" (ID 0, five suits) and "Six Suits" (ID 1, six
suits). -/
def testGetVariant (name : String) : Option httpmain.VariantWithID :=
  if name = "No Variant" then some { plainTable.Variant with ID := 0 }
  else if name = "Six Suits" then
    some { Name := "Six Suits"
           Suits := List.replicate 6 { Name := "Suit", Reversed := false }
           MaxScore := 30, HasReversedSuits := false, IsUpOrDown := false
           GetAdjustedClueTokens := fun n => n, ID := 1 }
  else none

/-- Statistics for "No Variant" only: the best scores for 2 to 6 players are
25, 24, 25, 0 and 25. -/
def testStatsMap (id : Int) : Option httpmain.VariantStatsRow :=
  if id = 0 then
    some { NumGames := 40
           BestScores := [{ Score := 25 }, { Score := 24 }, { Score := 25 }, { Score := 0 },
                          { Score := 25 }]
           NumMaxScores := 3, NumStrikeouts := 7 }
  else none

/-! ## Predicates used in the statements -/

/-- The end conditions that an action sets itself before `CheckEnd` runs
(the test at lines 241-244). -/
def setByAction (env : Env) (ec : Int) : Prop :=
  ec = env.EndConditionTimeout ∨ ec = env.EndConditionTerminated ∨
    ec = env.EndConditionIdleTimeout ∨ ec = env.EndConditionCharacterSoftlock

instance (env : Env) (ec : Int) : Decidable (setByAction env ec) :=
  inferInstanceAs (Decidable (ec = env.EndConditionTimeout ∨
    ec = env.EndConditionTerminated ∨ ec = env.EndConditionIdleTimeout ∨
    ec = env.EndConditionCharacterSoftlock))

/-- The five reasons that `CheckEnd` assigns are numbered apart from "in
progress". -/
def assignedReasonsTerminal (env : Env) : Prop :=
  env.EndConditionStrikeout ≠ env.EndConditionInProgress ∧
    env.EndConditionSpeedrunFail ≠ env.EndConditionInProgress ∧
    env.EndConditionAllOrNothingFail ≠ env.EndConditionInProgress ∧
    env.EndConditionAllOrNothingSoftlock ≠ env.EndConditionInProgress ∧
    env.EndConditionNormal ≠ env.EndConditionInProgress

instance (env : Env) : Decidable (assignedReasonsTerminal env) :=
  inferInstanceAs (Decidable (
    env.EndConditionStrikeout ≠ env.EndConditionInProgress ∧
    env.EndConditionSpeedrunFail ≠ env.EndConditionInProgress ∧
    env.EndConditionAllOrNothingFail ≠ env.EndConditionInProgress ∧
    env.EndConditionAllOrNothingSoftlock ≠ env.EndConditionInProgress ∧
    env.EndConditionNormal ≠ env.EndConditionInProgress))

/-- The full score of the variant of the game, `variant.MaxScore`. -/
def variantMaxScore (env : Env) (g : Game) : Int :=
  (env.variants g.Options.VariantName).MaxScore

/-- The clue-token threshold of rule 5, `variant.GetAdjustedClueTokens(1)`. -/
def oneClueThreshold (env : Env) (g : Game) : Int :=
  (env.variants g.Options.VariantName).GetAdjustedClueTokens 1

/-- Rules 1 to 4 of `CheckEnd` do not match: the conditions at lines 241-244,
250, 257 and 264 are all false. -/
def rulesOneToFourIdle (env : Env) (g : Game) : Prop :=
  ¬ setByAction env g.EndCondition ∧ g.Strikes ≠ env.MaxStrikeNum ∧
    ¬ (g.Options.Speedrun = true ∧ g.MaxScore < variantMaxScore env g) ∧
    ¬ (g.Options.AllOrNothing = true ∧ g.MaxScore < variantMaxScore env g)

/-- Rule 5 of `CheckEnd` is evaluated and does not match: the game is not in
all-or-nothing mode, or the active player exists and has a card or a clue can
be given. -/
def ruleFiveIdle (env : Env) (g : Game) : Prop :=
  g.Options.AllOrNothing = false ∨
    ∃ p, goIndex g.Players g.ActivePlayerIndex = some p ∧
      ¬ (p.Hand.length = 0 ∧ g.ClueTokens < oneClueThreshold env g)

/-- Some stack that is not at 5 has, in the deck, a copy of its next rank
(`stackLen + 1` in Go arithmetic) that is neither discarded nor marked as
unplayable. -/
def nextCardInDeck (g : Game) : Prop :=
  ∃ (i : Nat) (stackLen : Int), g.Stacks[i]? = some stackLen ∧ stackLen ≠ 5 ∧
    ∃ c ∈ g.Deck, c.SuitIndex = (i : Int) ∧ c.Rank = wrapInt64 (stackLen + 1) ∧
      c.Discarded = false ∧ c.CannotBePlayed = false

/-- The same with the next rank read as the integer `stackLen + 1`. -/
def nextCardInDeckExact (g : Game) : Prop :=
  ∃ (i : Nat) (stackLen : Int), g.Stacks[i]? = some stackLen ∧ stackLen ≠ 5 ∧
    ∃ c ∈ g.Deck, c.SuitIndex = (i : Int) ∧ c.Rank = stackLen + 1 ∧
      c.Discarded = false ∧ c.CannotBePlayed = false

/-- The revalidation of a woken timer succeeds: the table is still registered
under its ID and is the same object, the captured turn is the current turn,
the game is not paused, the captured pause count is the current one, and the
end condition is not greater than "in progress". -/
def timerStillValid (env : Env) (getTableAndLock : Int → Option Table) (w : TimerState)
    (turn : Int) (pauseCount : Int) : Prop :=
  (∃ t2, getTableAndLock w.game.Table.ID = some t2 ∧ t2.addr = w.game.Table.addr) ∧
    turn = w.game.Turn ∧ w.game.Paused = false ∧ pauseCount = w.game.PauseCount ∧
    ¬ (w.game.EndCondition > env.EndConditionInProgress)

/-- The timeout action that `EndTimer` submits for the player `gp` of the
game `g`. -/
def timeoutCommand (env : Env) (g : Game) (gp : GamePlayer) : CommandData :=
  { TableID := g.Table.ID, Type_ := env.ActionTypeEndGame, Target := gp.Index,
    Value := env.EndConditionTimeout, NoTableLock := true }

/-- The game once the time of the player at position `gp` is set to zero
(`gp.Time = 0`). -/
def withTimeZeroed (g : Game) (gp : Nat) (player : GamePlayer) : Game :=
  { g with Players := g.Players.set gp { player with Time := 0 } }

/-- The session under which `EndTimer` submits the action of a table player:
the session of the player, or a fake one when the player has none. -/
def sessionOrFake (p : TablePlayer) : Session :=
  p.Session.getD (NewFakeSession p.UserID p.Name)

/-- What the claim on the worker loop says the events are: one event for each
request in front of the first request of type `shutdown`, in queue order: the
call of the registered function with the data of the request, or the log entry
when no function is registered for its type. -/
def expectedEvents {φ δ : Type} (shutdown : Int) (requestFuncMap : Int → Option φ)
    (queue : List (request δ)) : List (WorkerEvent φ δ) :=
  (queue.takeWhile fun r => decide (r.reqType ≠ shutdown)).map fun r =>
    match requestFuncMap r.reqType with
    | some requestFunc => WorkerEvent.call requestFunc r.data
    | none => WorkerEvent.logError r.reqType

/-- The calls among the events, each with its function and its data. -/
def handlerCalls {φ δ : Type} (events : List (WorkerEvent φ δ)) : List (φ × δ) :=
  events.filterMap fun e =>
    match e with
    | WorkerEvent.call requestFunc data => some (requestFunc, data)
    | WorkerEvent.logError _ => none

/-- What the claim on the worker loop says of a run over `queue`: the events
are the expected ones; the calls are those of the requests in front of the
first shutdown request whose type has a registered function, once each, with
their own data, in queue order; the loop is left exactly when the queue holds
a shutdown request; and what follows the first shutdown request is never
received. -/
def WorkerLoopSpec {φ δ : Type} (shutdown : Int) (requestFuncMap : Int → Option φ)
    (queue : List (request δ)) (run : WorkerRun φ δ) : Prop :=
  run.events = expectedEvents shutdown requestFuncMap queue ∧
    handlerCalls run.events
      = (queue.takeWhile fun r => decide (r.reqType ≠ shutdown)).filterMap
          (fun r => (requestFuncMap r.reqType).map fun requestFunc => (requestFunc, r.data)) ∧
    (run.exited = true ↔ ∃ r ∈ queue, r.reqType = shutdown) ∧
    run.unreceived = (queue.dropWhile fun r => decide (r.reqType ≠ shutdown)).drop 1

/-- The direction that the loop of `newGame` gives to the play stack of a
suit. -/
def reversedDirection (k : Constants) (s : Suit) : Int :=
  if s.Reversed = true then k.StackDirectionDown else k.StackDirectionUp

/-- The game states reachable from `newGame(t)` by calls of `CheckEnd` that
complete. -/
inductive ReachableByCheckEnd (env : Env) (k : Constants) (t : table) : Game → Prop where
  | start : ReachableByCheckEnd env k t (newGame k t)
  | call {g g' : Game} {b : Bool} :
      ReachableByCheckEnd env k t g → CheckEnd env g = some (b, g') →
      ReachableByCheckEnd env k t g'

/-- The deck holds a copy of the card of this suit and rank that is not
discarded. -/
def liveCopy (deck : List Card) (suit : Nat) (rank : Nat) : Prop :=
  ∃ c ∈ deck, c.SuitIndex = (suit : Int) ∧ c.Rank = (rank : Int) ∧ c.Discarded = false

instance (deck : List Card) (suit rank : Nat) : Decidable (liveCopy deck suit rank) :=
  inferInstanceAs (Decidable (∃ c ∈ deck,
    c.SuitIndex = (suit : Int) ∧ c.Rank = (rank : Int) ∧ c.Discarded = false))

/-- The largest `k` in 0..5 such that every rank 1..k of the suit (the ranks of
`List.range' 1 k`) has a copy in the deck that is not discarded. -/
def suitPotential (deck : List Card) (suit : Nat) : Nat :=
  Nat.findGreatest (fun k => ∀ rank ∈ List.range' 1 k, liveCopy deck suit rank) 5

/-- The sum of the potentials of the suits 0, ..., `numSuits - 1`. -/
def maxScoreBySuits (deck : List Card) (numSuits : Nat) : Nat :=
  ((List.range numSuits).map (suitPotential deck)).sum

/-- The deck with the card at position `j` marked as discarded (the deck
itself when there is no such position). -/
def markDiscarded (deck : List Card) (j : Nat) : List Card :=
  match deck[j]? with
  | some c => deck.set j { c with Discarded := true }
  | none => deck

/-- The four end conditions that an action sets itself are numbered apart from
"in progress". -/
def actionReasonsTerminal (env : Env) : Prop :=
  env.EndConditionTimeout ≠ env.EndConditionInProgress ∧
    env.EndConditionTerminated ≠ env.EndConditionInProgress ∧
    env.EndConditionIdleTimeout ≠ env.EndConditionInProgress ∧
    env.EndConditionCharacterSoftlock ≠ env.EndConditionInProgress

instance (env : Env) : Decidable (actionReasonsTerminal env) :=
  inferInstanceAs (Decidable (
    env.EndConditionTimeout ≠ env.EndConditionInProgress ∧
    env.EndConditionTerminated ≠ env.EndConditionInProgress ∧
    env.EndConditionIdleTimeout ≠ env.EndConditionInProgress ∧
    env.EndConditionCharacterSoftlock ≠ env.EndConditionInProgress))

/-- The active player index is within the list of the players. -/
def activePlayerInRange (g : Game) : Prop :=
  0 ≤ g.ActivePlayerIndex ∧ g.ActivePlayerIndex < (g.Players.length : Int)

instance (g : Game) : Decidable (activePlayerInRange g) :=
  inferInstanceAs (Decidable
    (0 ≤ g.ActivePlayerIndex ∧ g.ActivePlayerIndex < (g.Players.length : Int)))

/-- The number of best scores of the variant of this name that equal the
maximum score of the variant, `len(variant.Suits) * PointsPerSuit` as a product
of Go `int`s (0 when the name is unknown or the variant has no statistics). -/
def maxScoreEntries (k : Constants) (GetVariant : String → Option httpmain.VariantWithID)
    (statsMap : Int → Option httpmain.VariantStatsRow) (name : String) : Nat :=
  match GetVariant name with
  | none => 0
  | some variant =>
    match statsMap variant.ID with
    | none => 0
    | some row =>
      row.BestScores.countP fun bestScore =>
        decide (bestScore.Score = wrapInt64 ((variant.Suits.length : Int) * k.PointsPerSuit))

/-- The number of pairs of a variant name and a place in its list of best
scores (a number of players) whose best score is the maximum score of the
variant. -/
def totalMaxScoreEntries (k : Constants)
    (GetVariant : String → Option httpmain.VariantWithID)
    (statsMap : Int → Option httpmain.VariantStatsRow) (names : List String) : Nat :=
  (names.map (maxScoreEntries k GetVariant statsMap)).sum

/-! ## `CheckEnd`, rule by rule -/

theorem CheckEnd_of_setByAction (env : Env) (g : Game)
    (h1 : setByAction env g.EndCondition) : CheckEnd env g = some (true, g) := by
  unfold setByAction at h1
  unfold CheckEnd
  simp only []
  rw [if_pos h1]

theorem CheckEnd_of_strikes (env : Env) (g : Game)
    (h1 : ¬ setByAction env g.EndCondition) (h2 : g.Strikes = env.MaxStrikeNum) :
    CheckEnd env g = some (true, { g with EndCondition := env.EndConditionStrikeout }) := by
  unfold setByAction at h1
  unfold CheckEnd
  simp only []
  rw [if_neg h1, if_pos h2]

theorem CheckEnd_of_speedrun (env : Env) (g : Game)
    (h1 : ¬ setByAction env g.EndCondition) (h2 : ¬ g.Strikes = env.MaxStrikeNum)
    (h3 : g.Options.Speedrun = true ∧ g.MaxScore < variantMaxScore env g) :
    CheckEnd env g = some (true, { g with EndCondition := env.EndConditionSpeedrunFail }) := by
  unfold setByAction at h1
  unfold variantMaxScore at h3
  unfold CheckEnd
  simp only []
  rw [if_neg h1, if_neg h2, if_pos h3]

theorem CheckEnd_of_allOrNothing (env : Env) (g : Game)
    (h1 : ¬ setByAction env g.EndCondition) (h2 : ¬ g.Strikes = env.MaxStrikeNum)
    (h3 : ¬ (g.Options.Speedrun = true ∧ g.MaxScore < variantMaxScore env g))
    (h4 : g.Options.AllOrNothing = true ∧ g.MaxScore < variantMaxScore env g) :
    CheckEnd env g
      = some (true, { g with EndCondition := env.EndConditionAllOrNothingFail }) := by
  unfold setByAction at h1
  unfold variantMaxScore at h3 h4
  unfold CheckEnd
  simp only []
  rw [if_neg h1, if_neg h2, if_neg h3, if_pos h4]

/-- Past the first four rules `CheckEnd` is decided by the softlock guard. -/
theorem CheckEnd_past_fail (env : Env) (g : Game)
    (h1 : ¬ setByAction env g.EndCondition) (h2 : ¬ g.Strikes = env.MaxStrikeNum)
    (h3 : ¬ (g.Options.Speedrun = true ∧ g.MaxScore < variantMaxScore env g))
    (h4 : ¬ (g.Options.AllOrNothing = true ∧ g.MaxScore < variantMaxScore env g)) :
    CheckEnd env g =
      match CheckEnd.softlockGuard env g with
      | none => none
      | some true =>
        match goIndex g.Players g.ActivePlayerIndex with
        | none => none
        | some p =>
          some (true, { g with EndCondition := env.EndConditionAllOrNothingSoftlock,
                               EndPlayer := p.Index })
      | some false => some (CheckEnd.finalRules env g) := by
  unfold setByAction at h1
  unfold variantMaxScore at h3 h4
  unfold CheckEnd
  simp only []
  rw [if_neg h1, if_neg h2, if_neg h3, if_neg h4]

theorem CheckEnd_of_softlock (env : Env) (g : Game) (p : GamePlayer)
    (h1 : ¬ setByAction env g.EndCondition) (h2 : ¬ g.Strikes = env.MaxStrikeNum)
    (h3 : ¬ (g.Options.Speedrun = true ∧ g.MaxScore < variantMaxScore env g))
    (h4 : ¬ (g.Options.AllOrNothing = true ∧ g.MaxScore < variantMaxScore env g))
    (hg : CheckEnd.softlockGuard env g = some true)
    (hp : goIndex g.Players g.ActivePlayerIndex = some p) :
    CheckEnd env g
      = some (true, { g with EndCondition := env.EndConditionAllOrNothingSoftlock,
                             EndPlayer := p.Index }) := by
  rw [CheckEnd_past_fail env g h1 h2 h3 h4, hg]
  simp only [hp]

theorem CheckEnd_of_guard_false (env : Env) (g : Game)
    (h1 : ¬ setByAction env g.EndCondition) (h2 : ¬ g.Strikes = env.MaxStrikeNum)
    (h3 : ¬ (g.Options.Speedrun = true ∧ g.MaxScore < variantMaxScore env g))
    (h4 : ¬ (g.Options.AllOrNothing = true ∧ g.MaxScore < variantMaxScore env g))
    (hg : CheckEnd.softlockGuard env g = some false) :
    CheckEnd env g = some (CheckEnd.finalRules env g) := by
  rw [CheckEnd_past_fail env g h1 h2 h3 h4, hg]

theorem CheckEnd_of_guard_fault (env : Env) (g : Game)
    (h1 : ¬ setByAction env g.EndCondition) (h2 : ¬ g.Strikes = env.MaxStrikeNum)
    (h3 : ¬ (g.Options.Speedrun = true ∧ g.MaxScore < variantMaxScore env g))
    (h4 : ¬ (g.Options.AllOrNothing = true ∧ g.MaxScore < variantMaxScore env g))
    (hg : CheckEnd.softlockGuard env g = none) :
    CheckEnd env g = none := by
  rw [CheckEnd_past_fail env g h1 h2 h3 h4, hg]

/-- When the guard holds the active player exists. -/
theorem softlockGuard_true (env : Env) (g : Game)
    (hg : CheckEnd.softlockGuard env g = some true) :
    g.Options.AllOrNothing = true ∧
      ∃ p, goIndex g.Players g.ActivePlayerIndex = some p ∧ p.Hand.length = 0 ∧
        g.ClueTokens < oneClueThreshold env g := by
  unfold CheckEnd.softlockGuard at hg
  unfold oneClueThreshold
  simp only [] at hg
  split_ifs at hg with ha
  · refine ⟨ha, ?_⟩
    split at hg
    · simp at hg
    · rename_i p hp
      refine ⟨p, hp, ?_⟩
      simpa using hg
  · simp at hg

/-- The final rules either leave the state alone and report no end, or report
a normal end. -/
theorem finalRules_cases (env : Env) (g : Game) :
    CheckEnd.finalRules env g = (false, g) ∨
      CheckEnd.finalRules env g = (true, { g with EndCondition := env.EndConditionNormal }) := by
  unfold CheckEnd.finalRules
  simp only []
  split_ifs <;> simp

/-- The final rules do not read `EndCondition`, provided the reversed-suit
helper does not. -/
theorem finalRules_fst_frame (env : Env)
    (hframe : ∀ (g : Game) (ec : Int),
      env.variantReversibleCheckAllDead { g with EndCondition := ec }
        = env.variantReversibleCheckAllDead g)
    (g : Game) (ec : Int) :
    (CheckEnd.finalRules env { g with EndCondition := ec }).1
      = (CheckEnd.finalRules env g).1 := by
  unfold CheckEnd.finalRules
  simp only [hframe]
  split_ifs <;> rfl

/-- A call that reports no end leaves the state as it was. -/
theorem CheckEnd_false_state (env : Env) (g g' : Game)
    (h : CheckEnd env g = some (false, g')) : g' = g := by
  by_cases h1 : setByAction env g.EndCondition
  · rw [CheckEnd_of_setByAction env g h1] at h
    simp at h
  by_cases h2 : g.Strikes = env.MaxStrikeNum
  · rw [CheckEnd_of_strikes env g h1 h2] at h
    simp at h
  by_cases h3 : g.Options.Speedrun = true ∧ g.MaxScore < variantMaxScore env g
  · rw [CheckEnd_of_speedrun env g h1 h2 h3] at h
    simp at h
  by_cases h4 : g.Options.AllOrNothing = true ∧ g.MaxScore < variantMaxScore env g
  · rw [CheckEnd_of_allOrNothing env g h1 h2 h3 h4] at h
    simp at h
  rw [CheckEnd_past_fail env g h1 h2 h3 h4] at h
  split at h
  · simp at h
  · split at h <;> simp at h
  · rcases finalRules_cases env g with hf | hf <;> rw [hf] at h <;> simp at h
    exact h.symm

/-- A call leaves the state as it was, or returns true having assigned one of
five reasons. -/
theorem CheckEnd_endCondition_cases (env : Env) (g g' : Game) (b : Bool)
    (h : CheckEnd env g = some (b, g')) :
    g' = g ∨ (b = true ∧
      (g'.EndCondition = env.EndConditionStrikeout ∨
        g'.EndCondition = env.EndConditionSpeedrunFail ∨
        g'.EndCondition = env.EndConditionAllOrNothingFail ∨
        g'.EndCondition = env.EndConditionAllOrNothingSoftlock ∨
        g'.EndCondition = env.EndConditionNormal)) := by
  by_cases h1 : setByAction env g.EndCondition
  · rw [CheckEnd_of_setByAction env g h1] at h
    simp only [Option.some.injEq, Prod.mk.injEq] at h
    exact Or.inl h.2.symm
  by_cases h2 : g.Strikes = env.MaxStrikeNum
  · rw [CheckEnd_of_strikes env g h1 h2] at h
    simp only [Option.some.injEq, Prod.mk.injEq] at h
    obtain ⟨rfl, rfl⟩ := h
    exact Or.inr ⟨rfl, Or.inl rfl⟩
  by_cases h3 : g.Options.Speedrun = true ∧ g.MaxScore < variantMaxScore env g
  · rw [CheckEnd_of_speedrun env g h1 h2 h3] at h
    simp only [Option.some.injEq, Prod.mk.injEq] at h
    obtain ⟨rfl, rfl⟩ := h
    exact Or.inr ⟨rfl, Or.inr (Or.inl rfl)⟩
  by_cases h4 : g.Options.AllOrNothing = true ∧ g.MaxScore < variantMaxScore env g
  · rw [CheckEnd_of_allOrNothing env g h1 h2 h3 h4] at h
    simp only [Option.some.injEq, Prod.mk.injEq] at h
    obtain ⟨rfl, rfl⟩ := h
    exact Or.inr ⟨rfl, Or.inr (Or.inr (Or.inl rfl))⟩
  rw [CheckEnd_past_fail env g h1 h2 h3 h4] at h
  split at h
  · simp at h
  · split at h
    · simp at h
    · simp only [Option.some.injEq, Prod.mk.injEq] at h
      obtain ⟨rfl, rfl⟩ := h
      exact Or.inr ⟨rfl, Or.inr (Or.inr (Or.inr (Or.inl rfl)))⟩
  · simp only [Option.some.injEq] at h
    rcases finalRules_cases env g with hf | hf
    · rw [hf] at h
      simp only [Prod.mk.injEq] at h
      exact Or.inl h.2.symm
    · rw [hf] at h
      simp only [Prod.mk.injEq] at h
      obtain ⟨rfl, rfl⟩ := h
      exact Or.inr ⟨rfl, Or.inr (Or.inr (Or.inr (Or.inr rfl)))⟩

/-- The scan of lines 311-327 finds a card exactly when some stack that is not
at 5 has, in the deck, a copy of its next rank that is neither discarded nor
marked unplayable. -/
theorem playableCardRemains_iff (stackLens : List Int) (deck : List Card) :
    playableCardRemains stackLens deck = true ↔
      ∃ (i : Nat) (stackLen : Int), stackLens[i]? = some stackLen ∧ stackLen ≠ 5 ∧
        ∃ c ∈ deck, c.SuitIndex = (i : Int) ∧ c.Rank = wrapInt64 (stackLen + 1) ∧
          c.Discarded = false ∧ c.CannotBePlayed = false := by
  unfold playableCardRemains
  simp only [List.any_eq_true, Prod.exists, List.mk_mem_enum_iff_getElem?]
  constructor
  · rintro ⟨i, stackLen, hi, h⟩
    split_ifs at h with h5
    simp only [List.any_eq_true, decide_eq_true_eq] at h
    exact ⟨i, stackLen, hi, h5, h⟩
  · rintro ⟨i, stackLen, hi, h5, h⟩
    refine ⟨i, stackLen, hi, ?_⟩
    rw [if_neg h5]
    simpa only [List.any_eq_true, decide_eq_true_eq] using h

/-- On the ranks of a real game the 64-bit wrap-around is the identity. -/
theorem wrapInt64_of_inRange (x : Int) (h1 : -(2 ^ 63) ≤ x) (h2 : x < 2 ^ 63) :
    wrapInt64 x = x := by
  unfold wrapInt64
  rw [Int.emod_eq_of_lt (by omega) (by omega)]
  omega

/-- Rule 5 is evaluated and does not match exactly when the guard is false. -/
theorem softlockGuard_false_iff (env : Env) (g : Game) :
    CheckEnd.softlockGuard env g = some false ↔
      (g.Options.AllOrNothing = false ∨
        ∃ p, goIndex g.Players g.ActivePlayerIndex = some p ∧
          ¬ (p.Hand.length = 0 ∧
            g.ClueTokens < oneClueThreshold env g)) := by
  unfold CheckEnd.softlockGuard oneClueThreshold
  simp only []
  split_ifs with ha
  · split
    · rename_i hn
      simp [ha, hn]
    · rename_i p hp
      simp [ha, hp]
  · simp [ha]

theorem softlockGuard_true_iff (env : Env) (g : Game) :
    CheckEnd.softlockGuard env g = some true ↔
      (g.Options.AllOrNothing = true ∧
        ∃ p, goIndex g.Players g.ActivePlayerIndex = some p ∧
          p.Hand.length = 0 ∧
            g.ClueTokens < oneClueThreshold env g) := by
  unfold CheckEnd.softlockGuard oneClueThreshold
  simp only []
  split_ifs with ha
  · split
    · rename_i hn
      simp [ha, hn]
    · rename_i p hp
      simp [ha, hp]
  · simp [ha]

/-- Where every `stackLen + 1` fits in 64 bits, Go's next rank is the integer
next rank. -/
theorem nextCardInDeck_iff_exact (g : Game)
    (h : ∀ s ∈ g.Stacks, -(2 ^ 63) ≤ s + 1 ∧ s + 1 < 2 ^ 63) :
    nextCardInDeck g ↔ nextCardInDeckExact g := by
  unfold nextCardInDeck nextCardInDeckExact
  constructor
  · rintro ⟨i, stackLen, hi, h5, c, hc, hsuit, hrank, hrest⟩
    have hs := h stackLen (List.getElem?_mem hi)
    rw [wrapInt64_of_inRange _ hs.1 hs.2] at hrank
    exact ⟨i, stackLen, hi, h5, c, hc, hsuit, hrank, hrest⟩
  · rintro ⟨i, stackLen, hi, h5, c, hc, hsuit, hrank, hrest⟩
    have hs := h stackLen (List.getElem?_mem hi)
    refine ⟨i, stackLen, hi, h5, c, hc, hsuit, ?_, hrest⟩
    rw [wrapInt64_of_inRange _ hs.1 hs.2]
    exact hrank

/-! ## Claims about `CheckEnd` -/

/-- C1: `CheckEnd` is idempotent.  If a call on `g` returns `b` and leaves the
state `g'`, a second call, on `g'`, returns the same `b` and leaves `g'` as it
is, so the end condition after the second call is the one after the first.
The reversed-suit helper, which is not part of the sources, is assumed not to
read `EndCondition`. -/
theorem CheckEnd_idempotent (env : Env)
    (hframe : ∀ (g : Game) (ec : Int),
      env.variantReversibleCheckAllDead { g with EndCondition := ec }
        = env.variantReversibleCheckAllDead g)
    (g g' : Game) (b : Bool) (h : CheckEnd env g = some (b, g')) :
    CheckEnd env g' = some (b, g') ∧
      ∀ b2 g2, CheckEnd env g' = some (b2, g2) →
        b2 = b ∧ g2.EndCondition = g'.EndCondition := by
  suffices hs : CheckEnd env g' = some (b, g') by
    refine ⟨hs, ?_⟩
    intro b2 g2 h2
    rw [hs] at h2
    simp only [Option.some.injEq, Prod.mk.injEq] at h2
    obtain ⟨rfl, rfl⟩ := h2
    exact ⟨rfl, rfl⟩
  by_cases h1 : setByAction env g.EndCondition
  · rw [CheckEnd_of_setByAction env g h1] at h
    simp only [Option.some.injEq, Prod.mk.injEq] at h
    obtain ⟨rfl, rfl⟩ := h
    exact CheckEnd_of_setByAction env g h1
  by_cases h1' : setByAction env g'.EndCondition
  · -- whatever rule fired, a value that an action sets is kept by the second call
    have hb : b = true := by
      cases b with
      | true => rfl
      | false =>
        have := CheckEnd_false_state env g g' h
        subst this
        exact absurd h1' h1
    subst hb
    exact CheckEnd_of_setByAction env g' h1'
  by_cases h2 : g.Strikes = env.MaxStrikeNum
  · rw [CheckEnd_of_strikes env g h1 h2] at h
    simp only [Option.some.injEq, Prod.mk.injEq] at h
    obtain ⟨rfl, rfl⟩ := h
    exact CheckEnd_of_strikes env _ h1' h2
  by_cases h3 : g.Options.Speedrun = true ∧ g.MaxScore < variantMaxScore env g
  · rw [CheckEnd_of_speedrun env g h1 h2 h3] at h
    simp only [Option.some.injEq, Prod.mk.injEq] at h
    obtain ⟨rfl, rfl⟩ := h
    exact CheckEnd_of_speedrun env _ h1' h2 h3
  by_cases h4 : g.Options.AllOrNothing = true ∧ g.MaxScore < variantMaxScore env g
  · rw [CheckEnd_of_allOrNothing env g h1 h2 h3 h4] at h
    simp only [Option.some.injEq, Prod.mk.injEq] at h
    obtain ⟨rfl, rfl⟩ := h
    exact CheckEnd_of_allOrNothing env _ h1' h2 h3 h4
  rw [CheckEnd_past_fail env g h1 h2 h3 h4] at h
  split at h
  · simp at h
  · rename_i hg
    split at h
    · simp at h
    · rename_i p hp
      simp only [Option.some.injEq, Prod.mk.injEq] at h
      obtain ⟨rfl, rfl⟩ := h
      exact CheckEnd_of_softlock env _ p h1' h2 h3 h4 hg hp
  · rename_i hg
    simp only [Option.some.injEq] at h
    rcases finalRules_cases env g with hf | hf
    · rw [hf] at h
      simp only [Prod.mk.injEq] at h
      obtain ⟨rfl, rfl⟩ := h
      rw [CheckEnd_of_guard_false env g h1 h2 h3 h4 hg, hf]
    · rw [hf] at h
      simp only [Prod.mk.injEq] at h
      obtain ⟨rfl, rfl⟩ := h
      rw [CheckEnd_of_guard_false env _ h1' h2 h3 h4 hg]
      have hfst := finalRules_fst_frame env hframe g env.EndConditionNormal
      rw [hf] at hfst
      rcases finalRules_cases env { g with EndCondition := env.EndConditionNormal }
        with hf' | hf'
      · rw [hf'] at hfst
        simp at hfst
      · rw [hf']

/-- Witness of C1: the game with an empty deck ends normally, and a second call
on the ended state gives the same answer and the same end condition. -/
theorem CheckEnd_idempotent_witness :
    CheckEnd testEnv emptyDeckGame
        = some (true, { emptyDeckGame with EndCondition := 1 }) ∧
      CheckEnd testEnv { emptyDeckGame with EndCondition := 1 }
        = some (true, { emptyDeckGame with EndCondition := 1 }) ∧
      ∀ b2 g2, CheckEnd testEnv { emptyDeckGame with EndCondition := 1 } = some (b2, g2) →
        b2 = true ∧ g2.EndCondition = 1 :=
  ⟨by decide,
   CheckEnd_idempotent testEnv (fun _ _ => rfl) emptyDeckGame
     { emptyDeckGame with EndCondition := 1 } true (by decide)⟩

/-- C2, counterexample: a state whose end condition is the terminal value
Normal and whose strikes are at the maximum is given the end condition
Strikeout by `CheckEnd`. -/
theorem CheckEnd_terminal_not_kept :
    normalEndThreeStrikesGame.EndCondition = testEnv.EndConditionNormal ∧
      normalEndThreeStrikesGame.EndCondition ≠ testEnv.EndConditionInProgress ∧
      CheckEnd testEnv normalEndThreeStrikesGame
        = some (true, { normalEndThreeStrikesGame with
                        EndCondition := testEnv.EndConditionStrikeout }) ∧
      testEnv.EndConditionStrikeout ≠ normalEndThreeStrikesGame.EndCondition := by
  decide

/-- C2, amended: for every game state whose end condition is terminal, a call
to `CheckEnd` leaves it terminal (it is never set back to "in progress"); it
leaves it exactly as it was when it is Timeout, Terminated, IdleTimeout or
CharacterSoftlock, whatever the other fields, and when the call returns false.
The reasons that `CheckEnd` assigns are taken to be numbered apart from "in
progress". -/
theorem CheckEnd_terminal_stays_terminal (env : Env) (g : Game)
    (hdist : assignedReasonsTerminal env)
    (hterm : g.EndCondition ≠ env.EndConditionInProgress) :
    ((g.EndCondition = env.EndConditionTimeout ∨
        g.EndCondition = env.EndConditionTerminated ∨
        g.EndCondition = env.EndConditionIdleTimeout ∨
        g.EndCondition = env.EndConditionCharacterSoftlock) →
      ∃ b g', CheckEnd env g = some (b, g') ∧ g'.EndCondition = g.EndCondition) ∧
    (∀ b g', CheckEnd env g = some (b, g') →
      g'.EndCondition ≠ env.EndConditionInProgress ∧
        (b = false → g'.EndCondition = g.EndCondition)) := by
  refine ⟨fun h => ⟨true, g, CheckEnd_of_setByAction env g h, rfl⟩, fun b g' h => ?_⟩
  obtain ⟨d1, d2, d3, d4, d5⟩ := hdist
  rcases CheckEnd_endCondition_cases env g g' b h with rfl | ⟨hb, hc⟩
  · exact ⟨hterm, fun _ => rfl⟩
  · refine ⟨?_, fun hf => ?_⟩
    · rcases hc with hc | hc | hc | hc | hc <;> rw [hc] <;> assumption
    · rw [hb] at hf
      exact absurd hf (by decide)

/-- Witness of the amended C2: a terminated game on its final turn stays
terminated, and the state marked Normal with three strikes stays terminal. -/
theorem CheckEnd_terminal_stays_terminal_witness :
    (assignedReasonsTerminal testEnv ∧
      terminatedGame.EndCondition ≠ testEnv.EndConditionInProgress ∧
      normalEndThreeStrikesGame.EndCondition ≠ testEnv.EndConditionInProgress) ∧
    (∃ b g', CheckEnd testEnv terminatedGame = some (b, g') ∧
      g'.EndCondition = terminatedGame.EndCondition) ∧
    (∀ b g', CheckEnd testEnv normalEndThreeStrikesGame = some (b, g') →
      g'.EndCondition ≠ testEnv.EndConditionInProgress ∧
        (b = false → g'.EndCondition = normalEndThreeStrikesGame.EndCondition)) :=
  ⟨⟨by decide, by decide, by decide⟩,
   (CheckEnd_terminal_stays_terminal testEnv terminatedGame (by decide) (by decide)).1
     (by decide),
   (CheckEnd_terminal_stays_terminal testEnv normalEndThreeStrikesGame
     (by decide) (by decide)).2⟩

/-- C3: when the end condition is already Timeout, Terminated, IdleTimeout or
CharacterSoftlock, `CheckEnd` returns true and leaves the whole game state
unchanged, whatever the strikes and the other fields. -/
theorem CheckEnd_preset_unchanged (env : Env) (g : Game)
    (h : g.EndCondition = env.EndConditionTimeout ∨
      g.EndCondition = env.EndConditionTerminated ∨
      g.EndCondition = env.EndConditionIdleTimeout ∨
      g.EndCondition = env.EndConditionCharacterSoftlock) :
    CheckEnd env g = some (true, g) :=
  CheckEnd_of_setByAction env g h

/-- Witness of C3: a timed-out game with three strikes stays as it is. -/
theorem CheckEnd_preset_unchanged_witness :
    (timedOutGame.EndCondition = testEnv.EndConditionTimeout ∨
      timedOutGame.EndCondition = testEnv.EndConditionTerminated ∨
      timedOutGame.EndCondition = testEnv.EndConditionIdleTimeout ∨
      timedOutGame.EndCondition = testEnv.EndConditionCharacterSoftlock) ∧
    timedOutGame.Strikes = testEnv.MaxStrikeNum ∧
    CheckEnd testEnv timedOutGame = some (true, timedOutGame) :=
  ⟨by decide, by decide, CheckEnd_preset_unchanged testEnv timedOutGame (by decide)⟩

/-- C4: when the strikes equal `MaxStrikeNum` and no end condition was set by
the action, `CheckEnd` returns true and sets the end condition to Strikeout
(no other field changes), whatever the options, the scores and the turn. -/
theorem CheckEnd_strikeout (env : Env) (g : Game)
    (hpre : ¬ (g.EndCondition = env.EndConditionTimeout ∨
      g.EndCondition = env.EndConditionTerminated ∨
      g.EndCondition = env.EndConditionIdleTimeout ∨
      g.EndCondition = env.EndConditionCharacterSoftlock))
    (hstrikes : g.Strikes = env.MaxStrikeNum) :
    CheckEnd env g = some (true, { g with EndCondition := env.EndConditionStrikeout }) :=
  CheckEnd_of_strikes env g hpre hstrikes

/-- Witness of C4: three strikes in a speedrun and all-or-nothing game whose
perfect score is out of reach, on the final turn, with the score at the
maximum: the reason is Strikeout. -/
theorem CheckEnd_strikeout_witness :
    (threeStrikesGame.Options.Speedrun = true ∧
      threeStrikesGame.Options.AllOrNothing = true ∧
      threeStrikesGame.MaxScore < variantMaxScore testEnv threeStrikesGame ∧
      threeStrikesGame.Turn = threeStrikesGame.EndTurn ∧
      threeStrikesGame.Score = threeStrikesGame.MaxScore) ∧
    CheckEnd testEnv threeStrikesGame
      = some (true, { threeStrikesGame with EndCondition := 2 }) :=
  ⟨by decide, CheckEnd_strikeout testEnv threeStrikesGame (by decide) (by decide)⟩

/-- C5: in all-or-nothing mode, when no end condition was set by the action,
the strikes are not at the maximum, the maximum score is not below the full
score of the variant, the active player has no card and the clue tokens are
below `GetAdjustedClueTokens(1)`, `CheckEnd` returns true, sets the end
condition to AllOrNothingSoftlock and `EndPlayer` to the index of the active
player, whatever the turn and the score. -/
theorem CheckEnd_allOrNothingSoftlock (env : Env) (g : Game) (p : GamePlayer)
    (hmode : g.Options.AllOrNothing = true)
    (hpre : ¬ (g.EndCondition = env.EndConditionTimeout ∨
      g.EndCondition = env.EndConditionTerminated ∨
      g.EndCondition = env.EndConditionIdleTimeout ∨
      g.EndCondition = env.EndConditionCharacterSoftlock))
    (hstrikes : g.Strikes ≠ env.MaxStrikeNum)
    (hmax : ¬ g.MaxScore < (env.variants g.Options.VariantName).MaxScore)
    (hactive : goIndex g.Players g.ActivePlayerIndex = some p)
    (hhand : p.Hand.length = 0)
    (hclues : g.ClueTokens < (env.variants g.Options.VariantName).GetAdjustedClueTokens 1) :
    CheckEnd env g
      = some (true, { g with EndCondition := env.EndConditionAllOrNothingSoftlock,
                             EndPlayer := p.Index }) := by
  have h3 : ¬ (g.Options.Speedrun = true ∧ g.MaxScore < variantMaxScore env g) :=
    fun h => hmax h.2
  have h4 : ¬ (g.Options.AllOrNothing = true ∧ g.MaxScore < variantMaxScore env g) :=
    fun h => hmax h.2
  have hg : CheckEnd.softlockGuard env g = some true :=
    (softlockGuard_true_iff env g).mpr ⟨hmode, p, hactive, hhand, hclues⟩
  exact CheckEnd_of_softlock env g p hpre hstrikes h3 h4 hg hactive

/-- Witness of C5: bob, at seat 1, is to play with no card and no clue token,
on the final turn and with a full score. -/
theorem CheckEnd_allOrNothingSoftlock_witness :
    (softlockGame.Turn = softlockGame.EndTurn ∧
      softlockGame.Score = softlockGame.MaxScore) ∧
    CheckEnd testEnv softlockGame
      = some (true, { softlockGame with EndCondition := 9, EndPlayer := 1 }) :=
  ⟨by decide,
   CheckEnd_allOrNothingSoftlock testEnv softlockGame
     { Index := 1, Name := "bob", Time := 60, Hand := [] }
     (by decide) (by decide) (by decide) (by decide) (by decide) (by decide) (by decide)⟩

/-- C6: when no end condition was set by the action, the strikes are not at the
maximum and the maximum score is below the full score of the variant,
`CheckEnd` returns true with SpeedrunFail if the speedrun option is on (also
when all-or-nothing is on too), and with AllOrNothingFail if speedrun is off and
all-or-nothing is on.  With both options off, in any state, a call completes
and leaves the state as it was or assigns Strikeout or Normal to
`EndCondition`: it assigns neither of the two fail reasons. -/
theorem CheckEnd_perfect_score_impossible (env : Env) (g : Game) :
    (¬ (g.EndCondition = env.EndConditionTimeout ∨
        g.EndCondition = env.EndConditionTerminated ∨
        g.EndCondition = env.EndConditionIdleTimeout ∨
        g.EndCondition = env.EndConditionCharacterSoftlock) →
      g.Strikes ≠ env.MaxStrikeNum →
      g.MaxScore < (env.variants g.Options.VariantName).MaxScore →
      (g.Options.Speedrun = true →
        CheckEnd env g
          = some (true, { g with EndCondition := env.EndConditionSpeedrunFail })) ∧
      (g.Options.Speedrun = false → g.Options.AllOrNothing = true →
        CheckEnd env g
          = some (true, { g with EndCondition := env.EndConditionAllOrNothingFail }))) ∧
    (g.Options.Speedrun = false → g.Options.AllOrNothing = false →
      ∃ b g', CheckEnd env g = some (b, g') ∧
        (g' = g ∨ g' = { g with EndCondition := env.EndConditionStrikeout } ∨
          g' = { g with EndCondition := env.EndConditionNormal })) := by
  refine ⟨fun h1 h2 hlt => ⟨fun hs => ?_, fun hs ha => ?_⟩, fun hs ha => ?_⟩
  · exact CheckEnd_of_speedrun env g h1 h2 ⟨hs, hlt⟩
  · refine CheckEnd_of_allOrNothing env g h1 h2 ?_ ⟨ha, hlt⟩
    rintro ⟨hs', -⟩
    rw [hs] at hs'
    exact Bool.false_ne_true hs'
  · by_cases h1 : setByAction env g.EndCondition
    · exact ⟨true, g, CheckEnd_of_setByAction env g h1, Or.inl rfl⟩
    by_cases h2 : g.Strikes = env.MaxStrikeNum
    · exact ⟨true, _, CheckEnd_of_strikes env g h1 h2, Or.inr (Or.inl rfl)⟩
    have h3 : ¬ (g.Options.Speedrun = true ∧ g.MaxScore < variantMaxScore env g) := by
      rintro ⟨hs', -⟩
      rw [hs] at hs'
      exact Bool.false_ne_true hs'
    have h4 : ¬ (g.Options.AllOrNothing = true ∧ g.MaxScore < variantMaxScore env g) := by
      rintro ⟨ha', -⟩
      rw [ha] at ha'
      exact Bool.false_ne_true ha'
    have hg : CheckEnd.softlockGuard env g = some false :=
      (softlockGuard_false_iff env g).mpr (Or.inl ha)
    rw [CheckEnd_of_guard_false env g h1 h2 h3 h4 hg]
    rcases finalRules_cases env g with hf | hf
    · exact ⟨false, g, by rw [hf], Or.inl rfl⟩
    · exact ⟨true, _, by rw [hf], Or.inr (Or.inr rfl)⟩

/-- Witness of C6: the three cases on games whose maximum score, 24, is below
the full score 25 of the variant. -/
theorem CheckEnd_perfect_score_impossible_witness :
    CheckEnd testEnv speedrunGame
        = some (true, { speedrunGame with EndCondition := 5 }) ∧
      CheckEnd testEnv allOrNothingGame
        = some (true, { allOrNothingGame with EndCondition := 8 }) ∧
      ∃ b g', CheckEnd testEnv imperfectGame = some (b, g') ∧
        (g' = imperfectGame ∨ g' = { imperfectGame with EndCondition := 2 } ∨
          g' = { imperfectGame with EndCondition := 1 }) :=
  ⟨((CheckEnd_perfect_score_impossible testEnv speedrunGame).1
      (by decide) (by decide) (by decide)).1 (by decide),
   ((CheckEnd_perfect_score_impossible testEnv allOrNothingGame).1
      (by decide) (by decide) (by decide)).2 (by decide) (by decide),
   (CheckEnd_perfect_score_impossible testEnv imperfectGame).2 (by decide) (by decide)⟩

/-- C7: for a variant without reversed suits, `CheckEnd` returns false if and
only if none of rules 1-7 match and some stack that is not at 5 has a copy of
its next rank in the deck that is neither discarded nor marked unplayable (the
state is then unchanged); when none of rules 1-7 match and there is no such
card, it returns true with the end condition Normal.  The next rank is
`stackLen + 1` as Go computes it; it is the integer `stackLen + 1` whenever
that fits in 64 bits. -/
theorem CheckEnd_continues_iff (env : Env) (g : Game)
    (hrev : (env.variants g.Options.VariantName).HasReversedSuits = false) :
    ((∃ g', CheckEnd env g = some (false, g')) ↔
      (rulesOneToFourIdle env g ∧ ruleFiveIdle env g ∧ g.Turn ≠ g.EndTurn ∧
        g.Score ≠ g.MaxScore) ∧ nextCardInDeck g) ∧
    (∀ g', CheckEnd env g = some (false, g') → g' = g) ∧
    ((rulesOneToFourIdle env g ∧ ruleFiveIdle env g ∧ g.Turn ≠ g.EndTurn ∧
        g.Score ≠ g.MaxScore) → ¬ nextCardInDeck g →
      CheckEnd env g = some (true, { g with EndCondition := env.EndConditionNormal })) ∧
    ((∀ s ∈ g.Stacks, -(2 ^ 63) ≤ s + 1 ∧ s + 1 < 2 ^ 63) →
      (nextCardInDeck g ↔ nextCardInDeckExact g)) := by
  have hfinal : ∀ (_ : g.Turn ≠ g.EndTurn) (_ : g.Score ≠ g.MaxScore),
      CheckEnd.finalRules env g =
        if playableCardRemains g.Stacks g.Deck = true then (false, g)
        else (true, { g with EndCondition := env.EndConditionNormal }) := by
    intro ht hsc
    unfold CheckEnd.finalRules
    simp only []
    rw [if_neg ht, if_neg hsc, hrev]
    simp only [Bool.false_eq_true, if_false]
  have hnext : playableCardRemains g.Stacks g.Deck = true ↔ nextCardInDeck g :=
    playableCardRemains_iff g.Stacks g.Deck
  refine ⟨⟨?_, ?_⟩, fun g' h => CheckEnd_false_state env g g' h, ?_,
    nextCardInDeck_iff_exact g⟩
  · rintro ⟨g', h⟩
    by_cases h1 : setByAction env g.EndCondition
    · rw [CheckEnd_of_setByAction env g h1] at h
      simp at h
    by_cases h2 : g.Strikes = env.MaxStrikeNum
    · rw [CheckEnd_of_strikes env g h1 h2] at h
      simp at h
    by_cases h3 : g.Options.Speedrun = true ∧ g.MaxScore < variantMaxScore env g
    · rw [CheckEnd_of_speedrun env g h1 h2 h3] at h
      simp at h
    by_cases h4 : g.Options.AllOrNothing = true ∧ g.MaxScore < variantMaxScore env g
    · rw [CheckEnd_of_allOrNothing env g h1 h2 h3 h4] at h
      simp at h
    rw [CheckEnd_past_fail env g h1 h2 h3 h4] at h
    split at h
    · simp at h
    · split at h <;> simp at h
    · rename_i hg
      have h5 : ruleFiveIdle env g := (softlockGuard_false_iff env g).mp hg
      by_cases ht : g.Turn = g.EndTurn
      · unfold CheckEnd.finalRules at h
        simp only [] at h
        rw [if_pos ht] at h
        simp at h
      by_cases hsc : g.Score = g.MaxScore
      · unfold CheckEnd.finalRules at h
        simp only [] at h
        rw [if_neg ht, if_pos hsc] at h
        simp at h
      rw [hfinal ht hsc] at h
      by_cases hplay : playableCardRemains g.Stacks g.Deck = true
      · exact ⟨⟨⟨h1, h2, h3, h4⟩, h5, ht, hsc⟩, hnext.mp hplay⟩
      · rw [if_neg hplay] at h
        simp at h
  · rintro ⟨⟨⟨h1, h2, h3, h4⟩, h5, ht, hsc⟩, hcard⟩
    have hg : CheckEnd.softlockGuard env g = some false :=
      (softlockGuard_false_iff env g).mpr h5
    refine ⟨g, ?_⟩
    rw [CheckEnd_of_guard_false env g h1 h2 h3 h4 hg, hfinal ht hsc,
      if_pos (hnext.mpr hcard)]
  · rintro ⟨⟨h1, h2, h3, h4⟩, h5, ht, hsc⟩ hcard
    have hg : CheckEnd.softlockGuard env g = some false :=
      (softlockGuard_false_iff env g).mpr h5
    rw [CheckEnd_of_guard_false env g h1 h2 h3 h4 hg, hfinal ht hsc,
      if_neg (fun hp => hcard (hnext.mp hp))]

/-- Witness of C7: the test variant has no reversed suits; the test game, whose
deck holds a playable red 1, goes on. -/
theorem CheckEnd_continues_iff_witness :
    (testEnv.variants testGame.Options.VariantName).HasReversedSuits = false ∧
      nextCardInDeck testGame ∧
      ∃ g', CheckEnd testEnv testGame = some (false, g') :=
  ⟨rfl,
   ⟨0, 0, by decide, by decide,
     { SuitIndex := 0, Rank := 1, Discarded := false, CannotBePlayed := false },
     by decide, by decide, by decide, rfl, rfl⟩,
   (CheckEnd_continues_iff testEnv testGame rfl).1.mpr
     ⟨⟨⟨by decide, by decide, by decide, by decide⟩, Or.inl rfl, by decide, by decide⟩,
      ⟨0, 0, by decide, by decide,
       { SuitIndex := 0, Rank := 1, Discarded := false, CannotBePlayed := false },
       by decide, by decide, by decide, rfl, rfl⟩⟩⟩

/-- C8: when rules 1-5 do not match and the turn equals `EndTurn` or the score
equals `MaxScore`, `CheckEnd` returns true and sets the end condition to
Normal, whether or not a playable card remains in the deck. -/
theorem CheckEnd_normal_end (env : Env) (g : Game)
    (h14 : rulesOneToFourIdle env g) (h5 : ruleFiveIdle env g)
    (h : g.Turn = g.EndTurn ∨ g.Score = g.MaxScore) :
    CheckEnd env g = some (true, { g with EndCondition := env.EndConditionNormal }) := by
  obtain ⟨h1, h2, h3, h4⟩ := h14
  have hg : CheckEnd.softlockGuard env g = some false :=
    (softlockGuard_false_iff env g).mpr h5
  rw [CheckEnd_of_guard_false env g h1 h2 h3 h4 hg]
  unfold CheckEnd.finalRules
  simp only []
  by_cases ht : g.Turn = g.EndTurn
  · rw [if_pos ht]
  · rw [if_neg ht, if_pos (h.resolve_left ht)]

/-- Witness of C8: on its final turn the test game ends normally although a
playable card is left in the deck. -/
theorem CheckEnd_normal_end_witness :
    (rulesOneToFourIdle testEnv finalTurnGame ∧ ruleFiveIdle testEnv finalTurnGame ∧
      (finalTurnGame.Turn = finalTurnGame.EndTurn ∨
        finalTurnGame.Score = finalTurnGame.MaxScore)) ∧
    playableCardRemains finalTurnGame.Stacks finalTurnGame.Deck = true ∧
    CheckEnd testEnv finalTurnGame
      = some (true, { finalTurnGame with EndCondition := 1 }) :=
  ⟨⟨⟨by decide, by decide, by decide, by decide⟩, Or.inl rfl, Or.inl (by decide)⟩,
   by decide,
   CheckEnd_normal_end testEnv finalTurnGame
     ⟨by decide, by decide, by decide, by decide⟩ (Or.inl rfl) (Or.inl (by decide))⟩

/-! ## The turn timer -/

/-- `EndTimer` on a player of the game who has a seat at the table: the time of
the player is zeroed in the game and one timeout action is submitted under the
session of the player. -/
theorem EndTimer_submits (env : Env) (w : TimerState) (gp : Nat) (player : GamePlayer)
    (p : TablePlayer) (hplayer : w.game.Players[gp]? = some player)
    (hseat : goIndex w.game.Table.Players player.Index = some p) :
    EndTimer env w gp
      = { state :=
            { game := withTimeZeroed w.game gp player
              submitted := w.submitted
                ++ [(sessionOrFake p, timeoutCommand env w.game player)] }
          faulted := false } := by
  unfold EndTimer
  simp only [hplayer, hseat]
  unfold withTimeZeroed sessionOrFake timeoutCommand
  cases hs : p.Session <;> rfl

/-- `EndTimer` on a player of the game without a seat at the table: the time of
the player is zeroed, then the run faults and nothing is submitted. -/
theorem EndTimer_index_fault (env : Env) (w : TimerState) (gp : Nat) (player : GamePlayer)
    (hplayer : w.game.Players[gp]? = some player)
    (hseat : goIndex w.game.Table.Players player.Index = none) :
    EndTimer env w gp
      = { state := { game := withTimeZeroed w.game gp player, submitted := w.submitted }
          faulted := true } := by
  unfold EndTimer
  simp only [hplayer, hseat]
  rfl

/-- `EndTimer` on the nil pointer: the run faults with nothing written. -/
theorem EndTimer_nil_fault (env : Env) (w : TimerState) (gp : Nat)
    (hplayer : w.game.Players[gp]? = none) :
    EndTimer env w gp = { state := w, faulted := true } := by
  unfold EndTimer
  simp only [hplayer]

/-- `EndTimer` never returns with everything as it was: it has faulted or it
has submitted an action. -/
theorem EndTimer_ne_idle (env : Env) (w : TimerState) (gp : Nat) :
    EndTimer env w gp ≠ { state := w, faulted := false } := by
  intro h
  cases hplayer : w.game.Players[gp]? with
  | none =>
    rw [EndTimer_nil_fault env w gp hplayer] at h
    simp at h
  | some player =>
    cases hseat : goIndex w.game.Table.Players player.Index with
    | none =>
      rw [EndTimer_index_fault env w gp player hplayer hseat] at h
      simp at h
    | some p =>
      rw [EndTimer_submits env w gp player p hplayer hseat] at h
      have hsub := congrArg (fun r => r.state.submitted.length) h
      simp at hsub

theorem CheckTimer_of_valid (env : Env) (getTableAndLock : Int → Option Table)
    (w : TimerState) (turn pauseCount : Int) (gp : Nat)
    (h : timerStillValid env getTableAndLock w turn pauseCount) :
    CheckTimer env getTableAndLock w turn pauseCount gp = EndTimer env w gp := by
  obtain ⟨⟨t2, ht2, haddr⟩, hturn, hpaused, hcount, hend⟩ := h
  unfold CheckTimer
  simp only [ht2]
  rw [if_neg (by simp [haddr]), if_neg (by simp [hturn]), if_neg (by simp [hpaused]),
    if_neg (by simp [hcount]), if_neg hend]

theorem CheckTimer_of_stale (env : Env) (getTableAndLock : Int → Option Table)
    (w : TimerState) (turn pauseCount : Int) (gp : Nat)
    (h : ¬ timerStillValid env getTableAndLock w turn pauseCount) :
    CheckTimer env getTableAndLock w turn pauseCount gp
      = { state := w, faulted := false } := by
  unfold CheckTimer
  simp only []
  split
  · rfl
  · rename_i t2 ht2
    split_ifs with h1 h2 h3 h4 h5
    · rfl
    · rfl
    · rfl
    · rfl
    · rfl
    · exfalso
      apply h
      refine ⟨⟨t2, ht2, ?_⟩, ?_, ?_, ?_, h5⟩
      · exact (not_not.mp h1).symm
      · exact not_not.mp h2
      · simpa using h3
      · exact not_not.mp h4

/-- C9: a woken timer calls `EndTimer` if and only if the table is still
registered and is the same table, the captured turn is the current turn, the
game is not paused, the captured pause count is the current one and the end
condition is not greater than "in progress"; in every other case it returns
with the state as it was and nothing submitted.  When it calls `EndTimer` for a
player of the game who has a seat at the table, the time of that player is
zeroed in the game and exactly one action is added to the submitted ones: the
end-game action with the value Timeout, aimed at the player, under the
session of the player; without a seat the time is zeroed and the run faults;
on a nil pointer it faults at once.  In particular a timer captured at turn 2
that wakes at turn 3 changes and submits nothing. -/
theorem CheckTimer_revalidation (env : Env) (getTableAndLock : Int → Option Table)
    (w : TimerState) (turn pauseCount : Int) (gp : Nat) :
    (CheckTimer env getTableAndLock w turn pauseCount gp
        = { state := w, faulted := false } ↔
      ¬ timerStillValid env getTableAndLock w turn pauseCount) ∧
    (timerStillValid env getTableAndLock w turn pauseCount →
      CheckTimer env getTableAndLock w turn pauseCount gp = EndTimer env w gp ∧
      (∀ player p, w.game.Players[gp]? = some player →
        goIndex w.game.Table.Players player.Index = some p →
        CheckTimer env getTableAndLock w turn pauseCount gp
          = { state :=
                { game := { w.game with
                    Players := w.game.Players.set gp { player with Time := 0 } }
                  submitted := w.submitted ++
                    [(p.Session.getD (NewFakeSession p.UserID p.Name),
                      { TableID := w.game.Table.ID, Type_ := env.ActionTypeEndGame,
                        Target := player.Index, Value := env.EndConditionTimeout,
                        NoTableLock := true })] }
              faulted := false }) ∧
      (∀ player, w.game.Players[gp]? = some player →
        goIndex w.game.Table.Players player.Index = none →
        CheckTimer env getTableAndLock w turn pauseCount gp
          = { state :=
                { game := { w.game with
                    Players := w.game.Players.set gp { player with Time := 0 } }
                  submitted := w.submitted }
              faulted := true }) ∧
      (w.game.Players[gp]? = none →
        CheckTimer env getTableAndLock w turn pauseCount gp
          = { state := w, faulted := true })) ∧
    (turn = 2 → w.game.Turn = 3 →
      CheckTimer env getTableAndLock w turn pauseCount gp
        = { state := w, faulted := false }) := by
  refine ⟨⟨fun h => ?_, CheckTimer_of_stale env getTableAndLock w turn pauseCount gp⟩,
    fun hv => ?_, fun h2 h3 => ?_⟩
  · intro hv
    rw [CheckTimer_of_valid env getTableAndLock w turn pauseCount gp hv] at h
    exact EndTimer_ne_idle env w gp h
  · have hcall := CheckTimer_of_valid env getTableAndLock w turn pauseCount gp hv
    refine ⟨hcall, fun player p hplayer hseat => ?_, fun player hplayer hseat => ?_,
      fun hplayer => ?_⟩
    · rw [hcall]
      exact EndTimer_submits env w gp player p hplayer hseat
    · rw [hcall]
      exact EndTimer_index_fault env w gp player hplayer hseat
    · rw [hcall]
      exact EndTimer_nil_fault env w gp hplayer
  · apply CheckTimer_of_stale
    rintro ⟨-, hturn, -⟩
    rw [h2, h3] at hturn
    exact absurd hturn (by decide)

/-- Witness of C9: the timer of bob (position 1, seat 1) captured at turn 2,
waking while the game is at turn 2, zeroes the 60 seconds of bob in the game
and submits one end-game action (type 4) with the value Timeout (3) aimed at
seat 1 of table 7, under the session of bob; the timer of alice, who has no
session, submits under a fake session; once the game is at turn 3 the timer
does nothing. -/
theorem CheckTimer_revalidation_witness :
    timerStillValid testEnv testRegistry testTimerState 2 0 ∧
      CheckTimer testEnv testRegistry testTimerState 2 0 1
        = { state :=
              { game := { testGame with
                  Players := [{ Index := 0, Name := "alice", Time := 60, Hand := [0, 1] },
                              { Index := 1, Name := "bob", Time := 0, Hand := [] }] }
                submitted :=
                  [({ UserID := 11, Username := "bob", Fake := false },
                    { TableID := 7, Type_ := 4, Target := 1, Value := 3,
                      NoTableLock := true })] }
            faulted := false } ∧
      CheckTimer testEnv testRegistry testTimerState 2 0 0
        = { state :=
              { game := { testGame with
                  Players := [{ Index := 0, Name := "alice", Time := 0, Hand := [0, 1] },
                              { Index := 1, Name := "bob", Time := 60, Hand := [] }] }
                submitted :=
                  [({ UserID := 10, Username := "alice", Fake := true },
                    { TableID := 7, Type_ := 4, Target := 0, Value := 3,
                      NoTableLock := true })] }
            faulted := false } ∧
      CheckTimer testEnv testRegistry testTimerState 2 0 1
        ≠ { state := testTimerState, faulted := false } ∧
      CheckTimer testEnv testRegistry turnThreeTimerState 2 0 1
        = { state := turnThreeTimerState, faulted := false } :=
  have hv : timerStillValid testEnv testRegistry testTimerState 2 0 :=
    ⟨⟨testGame.Table, by decide, rfl⟩, by decide, by decide, by decide, by decide⟩
  ⟨hv,
   ((CheckTimer_revalidation testEnv testRegistry testTimerState 2 0 1).2.1 hv).2.1
     { Index := 1, Name := "bob", Time := 60, Hand := [] }
     { UserID := 11, Name := "bob",
       Session := some { UserID := 11, Username := "bob", Fake := false } }
     (by decide) (by decide),
   ((CheckTimer_revalidation testEnv testRegistry testTimerState 2 0 0).2.1 hv).2.1
     { Index := 0, Name := "alice", Time := 60, Hand := [0, 1] }
     { UserID := 10, Name := "alice", Session := none }
     (by decide) (by decide),
   fun h => ((CheckTimer_revalidation testEnv testRegistry testTimerState 2 0 1).1.mp h) hv,
   (CheckTimer_revalidation testEnv testRegistry turnThreeTimerState 2 0 1).2.2
     rfl (by decide)⟩

/-! ## The worker loop -/

theorem sessions_ListenForRequests_spec {φ δ : Type} (requestFuncMap : Int → Option φ)
    (queue : List (request δ)) :
    WorkerLoopSpec sessions.requestTypeShutdown requestFuncMap queue
      (sessions.ListenForRequests requestFuncMap queue) := by
  unfold WorkerLoopSpec expectedEvents handlerCalls
  induction queue with
  | nil => simp [sessions.ListenForRequests]
  | cons req rest ih =>
    obtain ⟨ih1, ih2, ih3, ih4⟩ := ih
    by_cases hs : req.reqType = sessions.requestTypeShutdown
    · simp [sessions.ListenForRequests, hs]
    · unfold sessions.ListenForRequests
      rw [if_neg hs]
      simp only []
      rw [List.takeWhile_cons_of_pos (by simpa using hs),
        List.dropWhile_cons_of_pos (by simpa using hs)]
      cases hf : requestFuncMap req.reqType with
      | none =>
        simp only [List.map_cons, List.filterMap_cons, hf, Option.map_none',
          List.mem_cons, exists_eq_or_imp, hs, false_or]
        exact ⟨by rw [ih1], ih2, ih3, ih4⟩
      | some f =>
        simp only [List.map_cons, List.filterMap_cons, hf, Option.map_some',
          List.mem_cons, exists_eq_or_imp, hs, false_or]
        exact ⟨by rw [ih1], by rw [ih2], ih3, ih4⟩

theorem tables_ListenForRequests_spec {φ δ : Type} (requestFuncMap : Int → Option φ)
    (queue : List (request δ)) :
    WorkerLoopSpec tables.requestTypeShutdown requestFuncMap queue
      (tables.ListenForRequests requestFuncMap queue) := by
  unfold WorkerLoopSpec expectedEvents handlerCalls
  induction queue with
  | nil => simp [tables.ListenForRequests]
  | cons req rest ih =>
    obtain ⟨ih1, ih2, ih3, ih4⟩ := ih
    by_cases hs : req.reqType = tables.requestTypeShutdown
    · simp [tables.ListenForRequests, hs]
    · unfold tables.ListenForRequests
      rw [if_neg hs]
      simp only []
      rw [List.takeWhile_cons_of_pos (by simpa using hs),
        List.dropWhile_cons_of_pos (by simpa using hs)]
      cases hf : requestFuncMap req.reqType with
      | none =>
        simp only [List.map_cons, List.filterMap_cons, hf, Option.map_none',
          List.mem_cons, exists_eq_or_imp, hs, false_or]
        exact ⟨by rw [ih1], ih2, ih3, ih4⟩
      | some f =>
        simp only [List.map_cons, List.filterMap_cons, hf, Option.map_some',
          List.mem_cons, exists_eq_or_imp, hs, false_or]
        exact ⟨by rw [ih1], by rw [ih2], ih3, ih4⟩

/-- C10: on every finite queue, the worker loops of the sessions manager and of
the tables manager call the registered function of each request in front of
the first shutdown request whose type is in `requestFuncMap`, once, with the
data of that request and in queue order; a request whose type has no
registered function is logged and the loop goes on; the loop is left at the
first shutdown request and nothing queued after it is received. -/
theorem ListenForRequests_worker_loop {φ δ : Type} (requestFuncMap : Int → Option φ)
    (queue : List (request δ)) :
    WorkerLoopSpec sessions.requestTypeShutdown requestFuncMap queue
        (sessions.ListenForRequests requestFuncMap queue) ∧
      WorkerLoopSpec tables.requestTypeShutdown requestFuncMap queue
        (tables.ListenForRequests requestFuncMap queue) :=
  ⟨sessions_ListenForRequests_spec requestFuncMap queue,
   tables_ListenForRequests_spec requestFuncMap queue⟩

/-! ## Submitting a request -/

/-- C11: if the flag `requestsClosed` of the manager is set, `newRequest`
returns an error and leaves the manager, hence the queue, as it was; if the flag
is not set, it returns nil and the queue is the former queue with one request
of the given type and data added at the tail.  This holds for the sessions
manager and for the tables manager, for every request type and data. -/
theorem newRequest_closed_or_enqueued {δ : Type} (m : Manager δ) (reqType : Int)
    (data : δ) :
    (m.requestsClosed = true →
      ((∃ err, (sessions.newRequest m reqType data).1 = some err) ∧
        (sessions.newRequest m reqType data).2 = m) ∧
      ((∃ err, (tables.newRequest m reqType data).1 = some err) ∧
        (tables.newRequest m reqType data).2 = m)) ∧
    (m.requestsClosed = false →
      sessions.newRequest m reqType data
        = (none, { m with
            requests := m.requests ++ [{ reqType := reqType, data := data }] }) ∧
      tables.newRequest m reqType data
        = (none, { m with
            requests := m.requests ++ [{ reqType := reqType, data := data }] })) := by
  constructor
  · intro h
    have hs : sessions.newRequest m reqType data
        = (some (m.name ++ " manager is closed to new requests"), m) := if_pos h
    have ht : tables.newRequest m reqType data
        = (some (m.name ++ " manager is closed to new requests"), m) := if_pos h
    rw [hs, ht]
    exact ⟨⟨⟨_, rfl⟩, rfl⟩, ⟨_, rfl⟩, rfl⟩
  · intro h
    have hn : ¬ m.requestsClosed = true := by
      rw [h]
      exact Bool.false_ne_true
    exact ⟨if_neg hn, if_neg hn⟩

/-- Witness of C11: a closed manager refuses the request and keeps its queue;
the open one puts the request behind the one that waits. -/
theorem newRequest_closed_or_enqueued_witness :
    (sessions.newRequest closedManager 5 "late").2 = closedManager ∧
      (∃ err, (tables.newRequest closedManager 5 "late").1 = some err) ∧
      sessions.newRequest openManager 5 "next"
        = (none, { openManager with
            requests := [{ reqType := 3, data := "hello" }, { reqType := 5, data := "next" }] }) :=
  ⟨((newRequest_closed_or_enqueued closedManager 5 "late").1 (by decide)).1.2,
   ((newRequest_closed_or_enqueued closedManager 5 "late").1 (by decide)).2.1,
   ((newRequest_closed_or_enqueued openManager 5 "next").2 (by decide)).1⟩

/-! ## The `chatPM` command -/

/-- C12, behaviour of the code: a payload that is not JSON or has the wrong
JSON type gets the error notification for the sender, no call of `ChatPM` and
no fault; for the payload `null` no error notification is sent, and the
handler faults on `d.Msg` unless the sender is muted: so it does for alice,
who is not muted. -/
theorem chatPM_malformed_payload (chatCheckMuted : commands.SessionData → Bool)
    (sessionData : commands.SessionData) :
    commands.chatPM chatCheckMuted sessionData commands.Payload.invalid
      = { effects := [commands.Effect.NotifyError sessionData.UserID
            "Your \x22chatPM\x22 command contained invalid data."],
          faulted := false } ∧
    commands.chatPM chatCheckMuted sessionData commands.Payload.wrongType
      = { effects := [commands.Effect.NotifyError sessionData.UserID
            "Your \x22chatPM\x22 command contained invalid data."],
          faulted := false } ∧
    (commands.chatPM chatCheckMuted sessionData commands.Payload.null).effects
      = [commands.Effect.chatCheckMuted sessionData] ∧
    (commands.chatPM chatCheckMuted sessionData commands.Payload.null).faulted
      = !chatCheckMuted sessionData ∧
    commands.chatPM (fun _ => false) aliceSession commands.Payload.null
      = { effects := [commands.Effect.chatCheckMuted aliceSession], faulted := true } := by
  refine ⟨rfl, rfl, ?_, ?_, rfl⟩
  · unfold commands.chatPM commands.jsonUnmarshal
    cases h : chatCheckMuted sessionData <;> simp
  · unfold commands.chatPM commands.jsonUnmarshal
    cases h : chatCheckMuted sessionData <;> simp

/-- C13: for a well-formed payload, if `chatCheckMuted` reports the sender as
muted the handler does not call `ChatPM`; if it does not, the handler calls
`ChatPM` once, with the user ID and the username of the sender and the `msg`
and `recipient` of the payload, and does not fault. -/
theorem chatPM_muted_sender (chatCheckMuted : commands.SessionData → Bool)
    (sessionData : commands.SessionData) (msg recipient : String) :
    (chatCheckMuted sessionData = true →
      (commands.chatPM chatCheckMuted sessionData
          (commands.Payload.object msg recipient)).effects
        = [commands.Effect.chatCheckMuted sessionData] ∧
      ∀ userID username msg2 recipient2,
        commands.Effect.ChatPM userID username msg2 recipient2 ∉
          (commands.chatPM chatCheckMuted sessionData
            (commands.Payload.object msg recipient)).effects) ∧
    (chatCheckMuted sessionData = false →
      commands.chatPM chatCheckMuted sessionData (commands.Payload.object msg recipient)
        = { effects := [commands.Effect.chatCheckMuted sessionData,
              commands.Effect.ChatPM sessionData.UserID sessionData.Username msg recipient],
            faulted := false } ∧
      ∀ userID username msg2 recipient2,
        List.count (commands.Effect.ChatPM userID username msg2 recipient2)
            (commands.chatPM chatCheckMuted sessionData
              (commands.Payload.object msg recipient)).effects
          = if userID = sessionData.UserID ∧ username = sessionData.Username ∧
              msg2 = msg ∧ recipient2 = recipient then 1 else 0) := by
  constructor
  · intro h
    have he : (commands.chatPM chatCheckMuted sessionData
        (commands.Payload.object msg recipient)).effects
          = [commands.Effect.chatCheckMuted sessionData] := by
      unfold commands.chatPM commands.jsonUnmarshal
      simp [h]
    refine ⟨he, ?_⟩
    intro userID username msg2 recipient2
    rw [he]
    simp
  · intro h
    have he : commands.chatPM chatCheckMuted sessionData
        (commands.Payload.object msg recipient)
          = { effects := [commands.Effect.chatCheckMuted sessionData,
                commands.Effect.ChatPM sessionData.UserID sessionData.Username msg recipient],
              faulted := false } := by
      unfold commands.chatPM commands.jsonUnmarshal
      simp [h]
    refine ⟨he, ?_⟩
    intro userID username msg2 recipient2
    rw [he]
    by_cases hc : userID = sessionData.UserID ∧ username = sessionData.Username ∧
        msg2 = msg ∧ recipient2 = recipient
    · obtain ⟨rfl, rfl, rfl, rfl⟩ := hc
      simp
    · rw [if_neg hc]
      rw [List.count_eq_zero]
      intro hmem
      apply hc
      simp only [List.mem_cons, List.mem_singleton, commands.Effect.ChatPM.injEq,
        List.not_mem_nil, or_false, false_or, reduceCtorEq] at hmem
      exact hmem

/-- Witness of C13: alice, muted, reaches nobody; alice, not muted, has her
message for bob passed on once. -/
theorem chatPM_muted_sender_witness :
    (commands.chatPM (fun _ => true) aliceSession
        (commands.Payload.object "hi" "bob")).effects
      = [commands.Effect.chatCheckMuted aliceSession] ∧
    commands.chatPM (fun _ => false) aliceSession (commands.Payload.object "hi" "bob")
      = { effects := [commands.Effect.chatCheckMuted aliceSession,
            commands.Effect.ChatPM 10 "alice" "hi" "bob"],
          faulted := false } :=
  ⟨((chatPM_muted_sender (fun _ => true) aliceSession "hi" "bob").1 rfl).1,
   ((chatPM_muted_sender (fun _ => false) aliceSession "hi" "bob").2 rfl).1⟩

/-! ## Hand size -/

/-- C19: the hand size of a normal game is 5 for 2 or 3 players, 4 for 4 or 5
players, 3 for 6 players and 4 for any other number of players; `GetHandSize`
adds 1 when `OneExtraCard` is set and takes 1 off when `OneLessCard` is set,
so with both set it is the size of a normal game; for 2 to 6 players it lies
between 2 and 6. -/
theorem GetHandSize_spec (g : Game) :
    ((g.Players.length = 2 ∨ g.Players.length = 3) → GetHandSizeForNormalGame g = 5) ∧
    ((g.Players.length = 4 ∨ g.Players.length = 5) → GetHandSizeForNormalGame g = 4) ∧
    (g.Players.length = 6 → GetHandSizeForNormalGame g = 3) ∧
    ((g.Players.length < 2 ∨ 6 < g.Players.length) → GetHandSizeForNormalGame g = 4) ∧
    GetHandSize g = GetHandSizeForNormalGame g
      + (if g.Options.OneExtraCard = true then 1 else 0)
      - (if g.Options.OneLessCard = true then 1 else 0) ∧
    (g.Options.OneExtraCard = true → g.Options.OneLessCard = true →
      GetHandSize g = GetHandSizeForNormalGame g) ∧
    (2 ≤ g.Players.length → g.Players.length ≤ 6 →
      2 ≤ GetHandSize g ∧ GetHandSize g ≤ 6) := by
  have hsize : GetHandSize g = GetHandSizeForNormalGame g
      + (if g.Options.OneExtraCard = true then 1 else 0)
      - (if g.Options.OneLessCard = true then 1 else 0) := by
    unfold GetHandSize
    simp only []
    split_ifs <;> omega
  refine ⟨?_, ?_, ?_, ?_, hsize, ?_, ?_⟩
  · intro h
    unfold GetHandSizeForNormalGame
    simp only []
    rw [if_pos h]
  · intro h
    unfold GetHandSizeForNormalGame
    simp only []
    rw [if_neg (by omega), if_pos h]
  · intro h
    unfold GetHandSizeForNormalGame
    simp only []
    rw [if_neg (by omega), if_neg (by omega), if_pos h]
  · intro h
    unfold GetHandSizeForNormalGame
    simp only []
    rw [if_neg (by omega), if_neg (by omega), if_neg (by omega)]
  · intro h1 h2
    rw [hsize, if_pos h1, if_pos h2]
    omega
  · intro h1 h2
    rw [hsize]
    have hbase : 3 ≤ GetHandSizeForNormalGame g ∧ GetHandSizeForNormalGame g ≤ 5 := by
      unfold GetHandSizeForNormalGame
      simp only []
      split_ifs <;> omega
    split_ifs <;> omega

/-- Witness of C19: the test game has two players, so five cards each, and
four when `OneLessCard` is set. -/
theorem GetHandSize_spec_witness :
    GetHandSizeForNormalGame testGame = 5 ∧
      (2 ≤ GetHandSize testGame ∧ GetHandSize testGame ≤ 6) ∧
      GetHandSize { testGame with
          Options := { testGame.Options with OneExtraCard := true, OneLessCard := true } }
        = 5 :=
  ⟨(GetHandSize_spec testGame).1 (Or.inl rfl),
   (GetHandSize_spec testGame).2.2.2.2.2.2 (by decide) (by decide),
   (GetHandSize_spec { testGame with
      Options := { testGame.Options with OneExtraCard := true, OneLessCard := true } }
    ).2.2.2.2.2.1 rfl rfl⟩

/-! ## Handler coverage -/

theorem sessions_requestFuncMapInit_isSome (m0 : Int → Option sessions.requestFunc)
    (k : Int) (hk : k ∈ sessions.declaredRequestTypes)
    (hs : k ≠ sessions.requestTypeShutdown) :
    (sessions.requestFuncMapInit m0 k).isSome = true := by
  simp only [sessions.declaredRequestTypes, List.mem_cons, List.mem_singleton,
    List.not_mem_nil, or_false] at hk
  rcases hk with h | h | h | h | h | h | h | h | h | h | h | h | h | h | h | h | h | h | h |
    h | h | h | h
  all_goals first
    | exact absurd h hs
    | (subst h; rfl)

theorem tables_requestFuncMapInit_isSome (m0 : Int → Option tables.requestFunc)
    (k : Int) (hk : k ∈ tables.declaredRequestTypes)
    (hs : k ≠ tables.requestTypeShutdown) :
    (tables.requestFuncMapInit m0 k).isSome = true := by
  simp only [tables.declaredRequestTypes, List.mem_cons, List.mem_singleton,
    List.not_mem_nil, or_false] at hk
  rcases hk with h | h | h | h | h | h | h | h | h | h | h | h
  all_goals first
    | exact absurd h hs
    | (subst h; rfl)

/-- The events of a run are calls only, when every request in front of the
first shutdown request has a registered function. -/
theorem expectedEvents_no_logError {φ δ : Type} (shutdown : Int)
    (requestFuncMap : Int → Option φ) (queue : List (request δ))
    (hreg : ∀ r ∈ queue, r.reqType ≠ shutdown → (requestFuncMap r.reqType).isSome = true)
    (reqType : Int) :
    WorkerEvent.logError reqType ∉ expectedEvents shutdown requestFuncMap queue := by
  unfold expectedEvents
  intro hmem
  rw [List.mem_map] at hmem
  obtain ⟨r, hr, he⟩ := hmem
  have hq : r ∈ queue := (List.takeWhile_sublist _).subset hr
  have hp := List.mem_takeWhile_imp hr
  have hne : r.reqType ≠ shutdown := by simpa using hp
  have hsome := hreg r hq hne
  cases hf : requestFuncMap r.reqType with
  | none => rw [hf] at hsome; simp at hsome
  | some f => rw [hf] at he; simp at he

/-- C20: in the sessions manager and in the tables manager, after
`requestFuncMapInit` every declared request type other than the shutdown
sentinel has a registered function, whatever the map held before; the entry of
the sentinel is left as it was, so it has none when the map starts empty; and
on a queue of requests of declared types the worker never takes the "invalid
request type" branch. -/
theorem requestFuncMapInit_covers_declared :
    (∀ m0 : Int → Option sessions.requestFunc,
      (∀ k ∈ sessions.declaredRequestTypes, k ≠ sessions.requestTypeShutdown →
        (sessions.requestFuncMapInit m0 k).isSome = true) ∧
      sessions.requestFuncMapInit m0 sessions.requestTypeShutdown
        = m0 sessions.requestTypeShutdown ∧
      ∀ (δ : Type) (queue : List (request δ)),
        (∀ r ∈ queue, r.reqType ∈ sessions.declaredRequestTypes) →
        ∀ reqType, WorkerEvent.logError reqType ∉
          (sessions.ListenForRequests (sessions.requestFuncMapInit m0) queue).events) ∧
    (∀ m0 : Int → Option tables.requestFunc,
      (∀ k ∈ tables.declaredRequestTypes, k ≠ tables.requestTypeShutdown →
        (tables.requestFuncMapInit m0 k).isSome = true) ∧
      tables.requestFuncMapInit m0 tables.requestTypeShutdown
        = m0 tables.requestTypeShutdown ∧
      ∀ (δ : Type) (queue : List (request δ)),
        (∀ r ∈ queue, r.reqType ∈ tables.declaredRequestTypes) →
        ∀ reqType, WorkerEvent.logError reqType ∉
          (tables.ListenForRequests (tables.requestFuncMapInit m0) queue).events) := by
  constructor
  · intro m0
    refine ⟨sessions_requestFuncMapInit_isSome m0, rfl, ?_⟩
    intro δ queue hq reqType
    rw [(sessions_ListenForRequests_spec (sessions.requestFuncMapInit m0) queue).1]
    exact expectedEvents_no_logError _ _ queue
      (fun r hr hne => sessions_requestFuncMapInit_isSome m0 r.reqType (hq r hr) hne) reqType
  · intro m0
    refine ⟨tables_requestFuncMapInit_isSome m0, rfl, ?_⟩
    intro δ queue hq reqType
    rw [(tables_ListenForRequests_spec (tables.requestFuncMapInit m0) queue).1]
    exact expectedEvents_no_logError _ _ queue
      (fun r hr hne => tables_requestFuncMapInit_isSome m0 r.reqType (hq r hr) hne) reqType

/-- Witness of C20: from the empty map, the sentinels have no function, the
last declared types have one, and a queue of declared types is served without
a log entry. -/
theorem requestFuncMapInit_covers_declared_witness :
    sessions.requestFuncMapInit (fun _ => none) sessions.requestTypeShutdown = none ∧
      (sessions.requestFuncMapInit (fun _ => none) sessions.requestTypeSetStatus).isSome
        = true ∧
      (tables.requestFuncMapInit (fun _ => none) tables.requestTypeUnspectate).isSome
        = true ∧
      ∀ reqType, WorkerEvent.logError reqType ∉
        (tables.ListenForRequests (tables.requestFuncMapInit (fun _ => none))
          [{ reqType := 4, data := "join" }, { reqType := 8, data := "print" },
           { reqType := 11, data := "stop" }, { reqType := 0, data := "late" }]).events :=
  ⟨(requestFuncMapInit_covers_declared.1 (fun _ => none)).2.1,
   (requestFuncMapInit_covers_declared.1 (fun _ => none)).1 _ (by decide) (by decide),
   (requestFuncMapInit_covers_declared.2 (fun _ => none)).1 _ (by decide) (by decide),
   (requestFuncMapInit_covers_declared.2 (fun _ => none)).2.2 String _ (by decide)⟩

/-! ## `newGame` -/

/-- The loop of `newGame` over the suits from position `n` on overwrites the
entries from `n` on with the directions of the suits. -/
theorem reverseStacks_loop (k : Constants) :
    ∀ (suits : List Suit) (n : Nat) (dirs : List Int),
      dirs.length = n + suits.length →
      (suits.enumFrom n).foldl
          (fun dirs (p : Nat × Suit) =>
            if p.2.Reversed = true then dirs.set p.1 k.StackDirectionDown
            else dirs.set p.1 k.StackDirectionUp)
          dirs
        = dirs.take n ++ suits.map (reversedDirection k) := by
  intro suits
  induction suits with
  | nil =>
    intro n dirs h
    simp only [List.length_nil, Nat.add_zero] at h
    simp [List.enumFrom, List.take_of_length_le (Nat.le_of_eq h)]
  | cons s rest ih =>
    intro n dirs h
    simp only [List.length_cons] at h
    simp only [List.enumFrom, List.foldl_cons, List.map_cons]
    have hstep : (if s.Reversed = true then dirs.set n k.StackDirectionDown
        else dirs.set n k.StackDirectionUp) = dirs.set n (reversedDirection k s) := by
      unfold reversedDirection
      split_ifs <;> rfl
    rw [hstep, ih (n + 1) (dirs.set n (reversedDirection k s))
      (by rw [List.length_set]; omega)]
    have hn : n < dirs.length := by omega
    have htake : (dirs.set n (reversedDirection k s)).take (n + 1)
        = dirs.take n ++ [reversedDirection k s] := by
      rw [List.take_succ, List.set_take,
        List.set_eq_of_length_le (by rw [List.length_take]; omega),
        List.getElem?_set_self hn]
      rfl
    rw [htake, List.append_assoc]
    rfl

theorem reverseStacks_eq_map (k : Constants) (suits : List Suit) :
    newGame.reverseStacks k suits (List.replicate suits.length 0)
      = suits.map (reversedDirection k) := by
  unfold newGame.reverseStacks List.enum
  rw [reverseStacks_loop k suits 0 _ (by simp)]
  simp

/-- The fields that `newGame` sets, whatever the variant. -/
theorem newGame_fields (k : Constants) (t : table) :
    (newGame k t).EndCondition = 0 ∧ (newGame k t).Turn = 0 ∧
    (newGame k t).ActivePlayerIndex = 0 ∧ (newGame k t).Score = 0 ∧
    (newGame k t).Strikes = 0 ∧ (newGame k t).EndTurn = -1 ∧
    (newGame k t).EndPlayer = -1 ∧ (newGame k t).Paused = false ∧
    (newGame k t).PauseCount = 0 ∧ (newGame k t).DeckIndex = 0 ∧
    (newGame k t).ClueTokens = t.Variant.GetAdjustedClueTokens k.MaxClueNum ∧
    (newGame k t).MaxScore
      = wrapInt64 ((t.Variant.Suits.length : Int) * k.PointsPerSuit) ∧
    (-(2 ^ 63) ≤ (t.Variant.Suits.length : Int) * k.PointsPerSuit →
      (t.Variant.Suits.length : Int) * k.PointsPerSuit < 2 ^ 63 →
      (newGame k t).MaxScore = (t.Variant.Suits.length : Int) * k.PointsPerSuit) ∧
    (newGame k t).Stacks.length = t.Variant.Suits.length ∧
    (∀ stackLen ∈ (newGame k t).Stacks, stackLen = 0) := by
  have hmax : (newGame k t).MaxScore
      = wrapInt64 ((t.Variant.Suits.length : Int) * k.PointsPerSuit) := by
    unfold newGame
    simp only []
    split_ifs <;> rfl
  have hst : (newGame k t).Stacks = List.replicate t.Variant.Suits.length 0 := by
    unfold newGame
    simp only []
    split_ifs <;> rfl
  have hfit : -(2 ^ 63) ≤ (t.Variant.Suits.length : Int) * k.PointsPerSuit →
      (t.Variant.Suits.length : Int) * k.PointsPerSuit < 2 ^ 63 →
      (newGame k t).MaxScore = (t.Variant.Suits.length : Int) * k.PointsPerSuit := by
    intro h1 h2
    rw [hmax, wrapInt64_of_inRange _ h1 h2]
  have hlen : (newGame k t).Stacks.length = t.Variant.Suits.length := by
    rw [hst, List.length_replicate]
  have hzero : ∀ stackLen ∈ (newGame k t).Stacks, stackLen = 0 := by
    intro stackLen hmem
    rw [hst] at hmem
    exact List.eq_of_mem_replicate hmem
  refine ⟨?_, ?_, ?_, ?_, ?_, ?_, ?_, ?_, ?_, ?_, ?_, hmax, hfit, hlen, hzero⟩
  all_goals (unfold newGame; simp only []; split_ifs <;> rfl)

/-- C16: `newGame` returns a game with `EndCondition = 0` (in progress), turn 0,
active player 0, score 0, no strike, `EndTurn = -1`, `EndPlayer = -1`, not
paused, pause count 0, deck index 0, the clue tokens of
`GetAdjustedClueTokens(MaxClueNum)`, the maximum score
`len(Suits) * PointsPerSuit` (a product of Go `int`s, the product of the
integers when that fits in 64 bits) and one stack at 0 for every suit. -/
theorem newGame_postcondition (k : Constants) (t : table) :
    (newGame k t).EndCondition = 0 ∧ (newGame k t).Turn = 0 ∧
    (newGame k t).ActivePlayerIndex = 0 ∧ (newGame k t).Score = 0 ∧
    (newGame k t).Strikes = 0 ∧ (newGame k t).EndTurn = -1 ∧
    (newGame k t).EndPlayer = -1 ∧ (newGame k t).Paused = false ∧
    (newGame k t).PauseCount = 0 ∧ (newGame k t).DeckIndex = 0 ∧
    (newGame k t).ClueTokens = t.Variant.GetAdjustedClueTokens k.MaxClueNum ∧
    (newGame k t).MaxScore
      = wrapInt64 ((t.Variant.Suits.length : Int) * k.PointsPerSuit) ∧
    (-(2 ^ 63) ≤ (t.Variant.Suits.length : Int) * k.PointsPerSuit →
      (t.Variant.Suits.length : Int) * k.PointsPerSuit < 2 ^ 63 →
      (newGame k t).MaxScore = (t.Variant.Suits.length : Int) * k.PointsPerSuit) ∧
    (newGame k t).Stacks.length = t.Variant.Suits.length ∧
    (∀ stackLen ∈ (newGame k t).Stacks, stackLen = 0) :=
  newGame_fields k t

/-- Witness of C16: the game of the five-suit table has the maximum score 25,
eight clue tokens and five stacks at 0. -/
theorem newGame_postcondition_witness :
    (newGame testConstants plainTable).MaxScore = 25 ∧
      (newGame testConstants plainTable).ClueTokens = 8 ∧
      (newGame testConstants plainTable).Stacks = [0, 0, 0, 0, 0] ∧
      ∀ stackLen ∈ (newGame testConstants plainTable).Stacks, stackLen = 0 :=
  ⟨(newGame_postcondition testConstants plainTable).2.2.2.2.2.2.2.2.2.2.2.2.1
      (by decide) (by decide),
   (newGame_postcondition testConstants plainTable).2.2.2.2.2.2.2.2.2.2.1,
   by decide,
   (newGame_postcondition testConstants plainTable).2.2.2.2.2.2.2.2.2.2.2.2.2.2⟩

/-- C17: `newGame` returns one play stack direction for every suit.  If the
variant has reversed suits and is not "Up or Down", the direction of suit `i`
is `StackDirectionDown` if the suit is reversed and `StackDirectionUp` if not
(so, the two constants being different, it is Down exactly when the suit is
reversed); if the variant is "Up or Down" or has no reversed suits, every
direction is left at the zero value. -/
theorem newGame_playStackDirections (k : Constants) (t : table) :
    (newGame k t).PlayStackDirections.length = t.Variant.Suits.length ∧
    (t.Variant.HasReversedSuits = true → t.Variant.IsUpOrDown = false →
      (newGame k t).PlayStackDirections
          = t.Variant.Suits.map
              (fun s => if s.Reversed = true then k.StackDirectionDown
                else k.StackDirectionUp) ∧
        (k.StackDirectionUp ≠ k.StackDirectionDown →
          ∀ (i : Nat) (s : Suit), t.Variant.Suits[i]? = some s →
            ((newGame k t).PlayStackDirections[i]? = some k.StackDirectionDown ↔
              s.Reversed = true))) ∧
    ((t.Variant.IsUpOrDown = true ∨ t.Variant.HasReversedSuits = false) →
      (newGame k t).PlayStackDirections = List.replicate t.Variant.Suits.length 0) := by
  have hrev : t.Variant.HasReversedSuits = true → t.Variant.IsUpOrDown = false →
      (newGame k t).PlayStackDirections = t.Variant.Suits.map (reversedDirection k) := by
    intro h1 h2
    unfold newGame
    simp only []
    rw [if_pos ⟨h1, by simp [h2]⟩]
    exact reverseStacks_eq_map k t.Variant.Suits
  have hplain : (t.Variant.IsUpOrDown = true ∨ t.Variant.HasReversedSuits = false) →
      (newGame k t).PlayStackDirections = List.replicate t.Variant.Suits.length 0 := by
    intro h
    unfold newGame
    simp only []
    rw [if_neg]
    rintro ⟨h1, h2⟩
    rcases h with h | h
    · exact h2 h
    · rw [h] at h1
      exact Bool.false_ne_true h1
  refine ⟨?_, fun h1 h2 => ⟨hrev h1 h2, fun hne i s hs => ?_⟩, hplain⟩
  · by_cases h : t.Variant.HasReversedSuits = true ∧ t.Variant.IsUpOrDown = false
    · rw [hrev h.1 h.2, List.length_map]
    · rw [hplain, List.length_replicate]
      by_cases h1 : t.Variant.HasReversedSuits = true
      · left
        cases hu : t.Variant.IsUpOrDown with
        | true => rfl
        | false => exact absurd ⟨h1, hu⟩ h
      · right
        simpa using h1
  · rw [hrev h1 h2, List.getElem?_map, hs]
    unfold reversedDirection
    simp only [Option.map_some', Option.some.injEq]
    cases hr : s.Reversed with
    | true => simp
    | false => simpa using hne

/-- Witness of C17: with the second of three suits reversed the directions are
Up, Down, Up; with five ordinary suits they are all zero. -/
theorem newGame_playStackDirections_witness :
    (newGame testConstants reversedTable).PlayStackDirections = [1, 2, 1] ∧
      (newGame testConstants plainTable).PlayStackDirections = [0, 0, 0, 0, 0] :=
  ⟨((newGame_playStackDirections testConstants reversedTable).2.1 rfl rfl).1,
   (newGame_playStackDirections testConstants plainTable).2.2 (Or.inr rfl)⟩

/-! ## `GetMaxScore` -/

/-- The counters of `GetSpecificCardNum`: the total is ahead of the discarded
by the number of copies that are not discarded. -/
theorem GetSpecificCardNum_fold (suitIndex rank : Int) :
    ∀ (deck : List Card) (counts : Int × Int),
      (deck.foldl
          (fun (counts : Int × Int) c =>
            if c.SuitIndex = suitIndex ∧ c.Rank = rank then
              (counts.1 + 1, if c.Discarded = true then counts.2 + 1 else counts.2)
            else counts)
          counts).1
        - (deck.foldl
          (fun (counts : Int × Int) c =>
            if c.SuitIndex = suitIndex ∧ c.Rank = rank then
              (counts.1 + 1, if c.Discarded = true then counts.2 + 1 else counts.2)
            else counts)
          counts).2
        = counts.1 - counts.2
          + (deck.countP fun c =>
              decide (c.SuitIndex = suitIndex ∧ c.Rank = rank ∧ c.Discarded = false) : Nat) := by
  intro deck
  induction deck with
  | nil => intro counts; simp
  | cons c rest ih =>
    intro counts
    rw [List.foldl_cons, ih, List.countP_cons]
    by_cases hm : c.SuitIndex = suitIndex ∧ c.Rank = rank
    · cases hd : c.Discarded with
      | true =>
        simp only [hm, and_self, if_true, hd, true_and, Bool.true_eq_false, decide_False,
          Bool.false_eq_true, if_false, Nat.add_zero]
        omega
      | false =>
        simp only [hm, and_self, if_true, hd, Bool.false_eq_true, if_false, true_and,
          decide_True, Nat.cast_add, Nat.cast_one]
        omega
    · have hn : ¬ (c.SuitIndex = suitIndex ∧ c.Rank = rank ∧ c.Discarded = false) :=
        fun h => hm ⟨h.1, h.2.1⟩
      simp only [hm, if_false, hn, decide_False, Bool.false_eq_true, Nat.add_zero]

/-- The test `total > discarded` of `GetMaxScore` holds exactly when the deck
has a copy of the card that is not discarded. -/
theorem GetSpecificCardNum_gt_iff (g : Game) (suit rank : Nat) :
    (GetSpecificCardNum g (suit : Int) (rank : Int)).1
        > (GetSpecificCardNum g (suit : Int) (rank : Int)).2 ↔
      liveCopy g.Deck suit rank := by
  have h := GetSpecificCardNum_fold (suit : Int) (rank : Int) g.Deck (0, 0)
  unfold GetSpecificCardNum liveCopy
  simp only [sub_self, zero_add] at h
  constructor
  · intro hgt
    have hpos : 0 < g.Deck.countP fun c =>
        decide (c.SuitIndex = (suit : Int) ∧ c.Rank = (rank : Int) ∧ c.Discarded = false) := by
      omega
    obtain ⟨c, hc, hp⟩ := List.countP_pos_iff.mp hpos
    exact ⟨c, hc, by simpa using hp⟩
  · rintro ⟨c, hc, hp⟩
    have hpos : 0 < g.Deck.countP fun c =>
        decide (c.SuitIndex = (suit : Int) ∧ c.Rank = (rank : Int) ∧ c.Discarded = false) :=
      List.countP_pos_iff.mpr ⟨c, hc, by simpa using hp⟩
    omega

/-- The potential of a suit is `j` when the ranks 1..j have a live copy and
rank `j + 1`, if it is at most 5, has none. -/
theorem suitPotential_eq (deck : List Card) (suit : Nat) (j : Nat) (hj : j ≤ 5)
    (hlive : ∀ rank, 1 ≤ rank → rank ≤ j → liveCopy deck suit rank)
    (hstop : j < 5 → ¬ liveCopy deck suit (j + 1)) :
    suitPotential deck suit = j := by
  unfold suitPotential
  rw [Nat.findGreatest_eq_iff]
  refine ⟨hj, fun _ rank hr => ?_, fun n hjn hn hP => ?_⟩
  · rw [List.mem_range'_1] at hr
    exact hlive rank hr.1 (by omega)
  · exact hstop (by omega) (hP (j + 1) (by rw [List.mem_range'_1]; omega))

/-- The loop over the ranks of a suit adds the potential of the suit. -/
theorem rankLoop_eq (g : Game) (suit : Nat) (maxScore : Int) :
    GetMaxScore.rankLoop g (suit : Int) [1, 2, 3, 4, 5] maxScore
      = maxScore + (suitPotential g.Deck suit : Nat) := by
  have h1 := GetSpecificCardNum_gt_iff g suit 1
  have h2 := GetSpecificCardNum_gt_iff g suit 2
  have h3 := GetSpecificCardNum_gt_iff g suit 3
  have h4 := GetSpecificCardNum_gt_iff g suit 4
  have h5 := GetSpecificCardNum_gt_iff g suit 5
  simp only [Nat.cast_one, Nat.cast_ofNat] at h1 h2 h3 h4 h5
  simp only [GetMaxScore.rankLoop]
  by_cases l1 : liveCopy g.Deck suit 1
  swap
  · rw [if_neg (fun h => l1 (h1.mp h)),
      suitPotential_eq g.Deck suit 0 (by omega) (fun r a b => by omega) (fun _ => l1)]
    simp
  rw [if_pos (h1.mpr l1)]
  by_cases l2 : liveCopy g.Deck suit 2
  swap
  · rw [if_neg (fun h => l2 (h2.mp h)),
      suitPotential_eq g.Deck suit 1 (by omega)
        (fun r a b => by
          have hr : r = 1 := by omega
          subst hr
          exact l1)
        (fun _ => l2)]
    simp
  rw [if_pos (h2.mpr l2)]
  by_cases l3 : liveCopy g.Deck suit 3
  swap
  · rw [if_neg (fun h => l3 (h3.mp h)),
      suitPotential_eq g.Deck suit 2 (by omega)
        (fun r a b => by
          have hr : r = 1 ∨ r = 2 := by omega
          rcases hr with rfl | rfl
          · exact l1
          · exact l2)
        (fun _ => l3)]
    simp only [Nat.cast_ofNat]
    omega
  rw [if_pos (h3.mpr l3)]
  by_cases l4 : liveCopy g.Deck suit 4
  swap
  · rw [if_neg (fun h => l4 (h4.mp h)),
      suitPotential_eq g.Deck suit 3 (by omega)
        (fun r a b => by
          have hr : r = 1 ∨ r = 2 ∨ r = 3 := by omega
          rcases hr with rfl | rfl | rfl
          · exact l1
          · exact l2
          · exact l3)
        (fun _ => l4)]
    simp only [Nat.cast_ofNat]
    omega
  rw [if_pos (h4.mpr l4)]
  by_cases l5 : liveCopy g.Deck suit 5
  swap
  · rw [if_neg (fun h => l5 (h5.mp h)),
      suitPotential_eq g.Deck suit 4 (by omega)
        (fun r a b => by
          have hr : r = 1 ∨ r = 2 ∨ r = 3 ∨ r = 4 := by omega
          rcases hr with rfl | rfl | rfl | rfl
          · exact l1
          · exact l2
          · exact l3
          · exact l4)
        (fun _ => l5)]
    simp only [Nat.cast_ofNat]
    omega
  rw [if_pos (h5.mpr l5),
    suitPotential_eq g.Deck suit 5 (by omega)
      (fun r a b => by
        have hr : r = 1 ∨ r = 2 ∨ r = 3 ∨ r = 4 ∨ r = 5 := by omega
        rcases hr with rfl | rfl | rfl | rfl | rfl
        · exact l1
        · exact l2
        · exact l3
        · exact l4
        · exact l5)
      (fun h => by omega)]
  simp only [Nat.cast_ofNat]
  omega

/-- The loop over the suits adds up the potentials. -/
theorem suitLoop_eq (g : Game) (n : Nat) :
    (List.range n).foldl
        (fun (maxScore : Int) (suit : Nat) =>
          GetMaxScore.rankLoop g (suit : Int) [1, 2, 3, 4, 5] maxScore)
        0
      = (maxScoreBySuits g.Deck n : Nat) := by
  unfold maxScoreBySuits
  induction n with
  | zero => simp
  | succ n ih =>
    rw [List.range_succ, List.foldl_append, ih, List.foldl_cons, List.foldl_nil,
      rankLoop_eq, List.map_append, List.sum_append]
    simp

theorem maxScoreBySuits_le (deck : List Card) (n : Nat) :
    maxScoreBySuits deck n ≤ 5 * n := by
  unfold maxScoreBySuits
  induction n with
  | zero => simp
  | succ n ih =>
    rw [List.range_succ, List.map_append, List.sum_append]
    have h5 : suitPotential deck n ≤ 5 := Nat.findGreatest_le 5
    simp only [List.map_cons, List.map_nil, List.sum_cons, List.sum_nil, Nat.add_zero]
    omega

/-- A copy that is live once one more card is marked as discarded was live
before. -/
theorem liveCopy_of_markDiscarded (deck : List Card) (j suit rank : Nat)
    (h : liveCopy (markDiscarded deck j) suit rank) : liveCopy deck suit rank := by
  unfold markDiscarded at h
  split at h
  · rename_i c hc
    obtain ⟨c', hmem, hs, hr, hd⟩ := h
    rcases List.mem_or_eq_of_mem_set hmem with hin | heq
    · exact ⟨c', hin, hs, hr, hd⟩
    · rw [heq] at hd
      simp at hd
  · exact h

theorem maxScoreBySuits_markDiscarded (deck : List Card) (j n : Nat) :
    maxScoreBySuits (markDiscarded deck j) n ≤ maxScoreBySuits deck n := by
  unfold maxScoreBySuits
  induction n with
  | zero => simp
  | succ n ih =>
    rw [List.range_succ, List.map_append, List.sum_append, List.map_append, List.sum_append]
    have hp : suitPotential (markDiscarded deck j) n ≤ suitPotential deck n := by
      unfold suitPotential
      exact Nat.findGreatest_mono_left
        (fun k hk rank hr => liveCopy_of_markDiscarded deck j n rank (hk rank hr)) 5
    simp only [List.map_cons, List.map_nil, List.sum_cons, List.sum_nil, Nat.add_zero]
    omega

/-- C18: for a variant without reversed suits, `GetMaxScore` is the sum, over
the suits (one for every stack), of the largest `k` in 0..5 such that every
rank 1..k of the suit has a copy in the deck that is not discarded; so it lies
between 0 and 5 times the number of suits, and marking one more card as
discarded never increases it. -/
theorem GetMaxScore_spec (env : Env) (variantReversibleGetMaxScore : Game → Int)
    (g : Game)
    (hrev : (env.variants g.Options.VariantName).HasReversedSuits = false) :
    GetMaxScore env variantReversibleGetMaxScore g
      = (maxScoreBySuits g.Deck g.Stacks.length : Nat) ∧
    0 ≤ GetMaxScore env variantReversibleGetMaxScore g ∧
    GetMaxScore env variantReversibleGetMaxScore g ≤ 5 * (g.Stacks.length : Int) ∧
    ∀ j : Nat,
      GetMaxScore env variantReversibleGetMaxScore
          { g with Deck := markDiscarded g.Deck j }
        ≤ GetMaxScore env variantReversibleGetMaxScore g := by
  have heq : ∀ deck : List Card,
      GetMaxScore env variantReversibleGetMaxScore { g with Deck := deck }
        = (maxScoreBySuits deck g.Stacks.length : Nat) := by
    intro deck
    unfold GetMaxScore
    simp only []
    rw [if_neg (by rw [hrev]; exact Bool.false_ne_true)]
    exact suitLoop_eq { g with Deck := deck } g.Stacks.length
  have hg : GetMaxScore env variantReversibleGetMaxScore g
      = (maxScoreBySuits g.Deck g.Stacks.length : Nat) := heq g.Deck
  refine ⟨hg, ?_, ?_, fun j => ?_⟩
  · rw [hg]
    exact Int.natCast_nonneg _
  · rw [hg]
    have := maxScoreBySuits_le g.Deck g.Stacks.length
    omega
  · rw [hg, heq]
    have := maxScoreBySuits_markDiscarded g.Deck j g.Stacks.length
    omega

/-- Witness of C18: in the two-suit game the first suit can reach 2 (its only 3
is discarded) and the second 1; discarding the live 2 of the first suit takes
the maximum down to 2. -/
theorem GetMaxScore_spec_witness :
    (testEnv.variants twoSuitGame.Options.VariantName).HasReversedSuits = false ∧
      maxScoreBySuits twoSuitGame.Deck twoSuitGame.Stacks.length = 3 ∧
      GetMaxScore testEnv (fun _ => 0) twoSuitGame = 3 ∧
      GetMaxScore testEnv (fun _ => 0)
          { twoSuitGame with Deck := markDiscarded twoSuitGame.Deck 2 }
        ≤ GetMaxScore testEnv (fun _ => 0) twoSuitGame :=
  ⟨rfl, by decide,
   (GetMaxScore_spec testEnv (fun _ => 0) twoSuitGame rfl).1.trans (by decide),
   (GetMaxScore_spec testEnv (fun _ => 0) twoSuitGame rfl).2.2.2 2⟩

/-! ## Score and strike bounds -/

/-- `CheckEnd` writes to `EndCondition` and `EndPlayer` only. -/
theorem CheckEnd_frame (env : Env) (g g' : Game) (b : Bool)
    (h : CheckEnd env g = some (b, g')) :
    g' = { g with EndCondition := g'.EndCondition, EndPlayer := g'.EndPlayer } := by
  by_cases h1 : setByAction env g.EndCondition
  · rw [CheckEnd_of_setByAction env g h1] at h
    simp only [Option.some.injEq, Prod.mk.injEq] at h
    obtain ⟨-, rfl⟩ := h
    rfl
  by_cases h2 : g.Strikes = env.MaxStrikeNum
  · rw [CheckEnd_of_strikes env g h1 h2] at h
    simp only [Option.some.injEq, Prod.mk.injEq] at h
    obtain ⟨-, rfl⟩ := h
    rfl
  by_cases h3 : g.Options.Speedrun = true ∧ g.MaxScore < variantMaxScore env g
  · rw [CheckEnd_of_speedrun env g h1 h2 h3] at h
    simp only [Option.some.injEq, Prod.mk.injEq] at h
    obtain ⟨-, rfl⟩ := h
    rfl
  by_cases h4 : g.Options.AllOrNothing = true ∧ g.MaxScore < variantMaxScore env g
  · rw [CheckEnd_of_allOrNothing env g h1 h2 h3 h4] at h
    simp only [Option.some.injEq, Prod.mk.injEq] at h
    obtain ⟨-, rfl⟩ := h
    rfl
  rw [CheckEnd_past_fail env g h1 h2 h3 h4] at h
  split at h
  · simp at h
  · split at h
    · simp at h
    · simp only [Option.some.injEq, Prod.mk.injEq] at h
      obtain ⟨-, rfl⟩ := h
      rfl
  · simp only [Option.some.injEq] at h
    rcases finalRules_cases env g with hf | hf
    · rw [hf] at h
      simp only [Prod.mk.injEq] at h
      obtain ⟨-, rfl⟩ := h
      rfl
    · rw [hf] at h
      simp only [Prod.mk.injEq] at h
      obtain ⟨-, rfl⟩ := h
      rfl

/-- C14: every game state reachable from `newGame(t)` by calls of `CheckEnd`
has `0 <= Score <= MaxScore` and `Strikes <= MaxStrikeNum`, the constants
`PointsPerSuit` and `MaxStrikeNum` being non-negative and the maximum score
`len(Suits) * PointsPerSuit` fitting in 64 bits. -/
theorem reachable_score_strike_bounds (env : Env) (k : Constants) (t : table)
    (hpoints : 0 ≤ k.PointsPerSuit)
    (hfits : (t.Variant.Suits.length : Int) * k.PointsPerSuit < 2 ^ 63)
    (hstrikes : 0 ≤ env.MaxStrikeNum)
    (g : Game) (hg : ReachableByCheckEnd env k t g) :
    0 ≤ g.Score ∧ g.Score ≤ g.MaxScore ∧ g.Strikes ≤ env.MaxStrikeNum := by
  have hprod : 0 ≤ (t.Variant.Suits.length : Int) * k.PointsPerSuit :=
    Int.mul_nonneg (Int.natCast_nonneg _) hpoints
  induction hg with
  | start =>
    obtain ⟨-, -, -, hscore, hstr, -, -, -, -, -, -, -, hmax, -⟩ := newGame_fields k t
    rw [hscore, hstr, hmax (by omega) hfits]
    exact ⟨le_refl 0, hprod, hstrikes⟩
  | @call g1 g2 b _ hcall ih =>
    have hf := CheckEnd_frame env g1 g2 b hcall
    have hs : g2.Score = g1.Score := by rw [hf]
    have hm : g2.MaxScore = g1.MaxScore := by rw [hf]
    have hk : g2.Strikes = g1.Strikes := by rw [hf]
    rw [hs, hm, hk]
    exact ih

/-- Witness of C14: the game of the five-suit table, after one call of
`CheckEnd` (which ends it: nothing can be played from an empty deck), has the
score 0 of 25 and no strike. -/
theorem reachable_score_strike_bounds_witness :
    CheckEnd testEnv (newGame testConstants plainTable)
        = some (true, { newGame testConstants plainTable with EndCondition := 1 }) ∧
      (0 ≤ ({ newGame testConstants plainTable with EndCondition := 1 } : Game).Score ∧
        ({ newGame testConstants plainTable with EndCondition := 1 } : Game).Score
          ≤ ({ newGame testConstants plainTable with EndCondition := 1 } : Game).MaxScore ∧
        ({ newGame testConstants plainTable with EndCondition := 1 } : Game).Strikes
          ≤ testEnv.MaxStrikeNum) :=
  ⟨by decide,
   reachable_score_strike_bounds testEnv testConstants plainTable (by decide) (by decide)
     (by decide) _
     (ReachableByCheckEnd.call ReachableByCheckEnd.start
       (show CheckEnd testEnv (newGame testConstants plainTable)
          = some (true, { newGame testConstants plainTable with EndCondition := 1 })
        by decide))⟩

/-! ## Frame and totality of `CheckEnd` -/

/-- The four ways in which a call of `CheckEnd` can complete: an end condition
set by the action is kept; no rule matches; one of the rules 2, 3, 4, 6, 7, 9
assigns a reason; rule 5 assigns AllOrNothingSoftlock and the end player. -/
theorem CheckEnd_outcome (env : Env) (g g' : Game) (b : Bool)
    (h : CheckEnd env g = some (b, g')) :
    (b = true ∧ g' = g ∧ setByAction env g.EndCondition) ∨
    (b = false ∧ g' = g) ∨
    (b = true ∧ ∃ ec, g' = { g with EndCondition := ec } ∧
      (ec = env.EndConditionStrikeout ∨ ec = env.EndConditionSpeedrunFail ∨
        ec = env.EndConditionAllOrNothingFail ∨ ec = env.EndConditionNormal)) ∨
    (b = true ∧ ∃ p, goIndex g.Players g.ActivePlayerIndex = some p ∧
      g' = { g with EndCondition := env.EndConditionAllOrNothingSoftlock,
                    EndPlayer := p.Index }) := by
  by_cases h1 : setByAction env g.EndCondition
  · rw [CheckEnd_of_setByAction env g h1] at h
    simp only [Option.some.injEq, Prod.mk.injEq] at h
    obtain ⟨rfl, rfl⟩ := h
    exact Or.inl ⟨rfl, rfl, h1⟩
  by_cases h2 : g.Strikes = env.MaxStrikeNum
  · rw [CheckEnd_of_strikes env g h1 h2] at h
    simp only [Option.some.injEq, Prod.mk.injEq] at h
    obtain ⟨rfl, rfl⟩ := h
    exact Or.inr (Or.inr (Or.inl ⟨rfl, _, rfl, Or.inl rfl⟩))
  by_cases h3 : g.Options.Speedrun = true ∧ g.MaxScore < variantMaxScore env g
  · rw [CheckEnd_of_speedrun env g h1 h2 h3] at h
    simp only [Option.some.injEq, Prod.mk.injEq] at h
    obtain ⟨rfl, rfl⟩ := h
    exact Or.inr (Or.inr (Or.inl ⟨rfl, _, rfl, Or.inr (Or.inl rfl)⟩))
  by_cases h4 : g.Options.AllOrNothing = true ∧ g.MaxScore < variantMaxScore env g
  · rw [CheckEnd_of_allOrNothing env g h1 h2 h3 h4] at h
    simp only [Option.some.injEq, Prod.mk.injEq] at h
    obtain ⟨rfl, rfl⟩ := h
    exact Or.inr (Or.inr (Or.inl ⟨rfl, _, rfl, Or.inr (Or.inr (Or.inl rfl))⟩))
  rw [CheckEnd_past_fail env g h1 h2 h3 h4] at h
  split at h
  · simp at h
  · split at h
    · simp at h
    · rename_i p hp
      simp only [Option.some.injEq, Prod.mk.injEq] at h
      obtain ⟨rfl, rfl⟩ := h
      exact Or.inr (Or.inr (Or.inr ⟨rfl, p, hp, rfl⟩))
  · simp only [Option.some.injEq] at h
    rcases finalRules_cases env g with hf | hf
    · rw [hf] at h
      simp only [Prod.mk.injEq] at h
      obtain ⟨rfl, rfl⟩ := h
      exact Or.inr (Or.inl ⟨rfl, rfl⟩)
    · rw [hf] at h
      simp only [Prod.mk.injEq] at h
      obtain ⟨rfl, rfl⟩ := h
      exact Or.inr (Or.inr (Or.inl ⟨rfl, _, rfl, Or.inr (Or.inr (Or.inr rfl))⟩))

/-- C21: a call of `CheckEnd` that completes changes no field other than
`EndCondition` and `EndPlayer` (so the scores, the strikes, the turns, the clue
tokens, the deck, the stacks and the pause fields are as before); when it
returns false the whole state is as before; when it returns true the end
condition is not "in progress", the nine end reasons being numbered apart from
"in progress"; and `EndPlayer` changes only when the end condition becomes
AllOrNothingSoftlock. -/
theorem CheckEnd_frame_effect (env : Env) (g g' : Game) (b : Bool)
    (h : CheckEnd env g = some (b, g')) :
    g' = { g with EndCondition := g'.EndCondition, EndPlayer := g'.EndPlayer } ∧
    (g'.Score = g.Score ∧ g'.MaxScore = g.MaxScore ∧ g'.Strikes = g.Strikes ∧
      g'.Turn = g.Turn ∧ g'.EndTurn = g.EndTurn ∧ g'.ClueTokens = g.ClueTokens ∧
      g'.DeckIndex = g.DeckIndex ∧ g'.Stacks = g.Stacks ∧ g'.Deck = g.Deck ∧
      g'.Paused = g.Paused ∧ g'.PausePlayerIndex = g.PausePlayerIndex ∧
      g'.PauseCount = g.PauseCount) ∧
    (b = false → g' = g) ∧
    (assignedReasonsTerminal env → actionReasonsTerminal env → b = true →
      g'.EndCondition ≠ env.EndConditionInProgress) ∧
    (g'.EndPlayer ≠ g.EndPlayer →
      g'.EndCondition = env.EndConditionAllOrNothingSoftlock) := by
  have hf := CheckEnd_frame env g g' b h
  refine ⟨hf, ?_, ?_, ?_, ?_⟩
  · refine ⟨?_, ?_, ?_, ?_, ?_, ?_, ?_, ?_, ?_, ?_, ?_, ?_⟩ <;> rw [hf]
  · intro hb
    subst hb
    exact CheckEnd_false_state env g g' h
  · rintro ⟨d1, d2, d3, d4, d5⟩ ⟨a1, a2, a3, a4⟩ hb
    rcases CheckEnd_outcome env g g' b h with
      ⟨-, rfl, hs⟩ | ⟨hfalse, -⟩ | ⟨-, ec, rfl, hec⟩ | ⟨-, p, -, rfl⟩
    · unfold setByAction at hs
      rcases hs with hs | hs | hs | hs <;> rw [hs] <;> assumption
    · rw [hb] at hfalse
      exact absurd hfalse (by decide)
    · rcases hec with rfl | rfl | rfl | rfl <;> assumption
    · exact d4
  · intro hne
    rcases CheckEnd_outcome env g g' b h with
      ⟨-, rfl, -⟩ | ⟨-, rfl⟩ | ⟨-, ec, rfl, -⟩ | ⟨-, p, -, rfl⟩
    · exact absurd rfl hne
    · exact absurd rfl hne
    · exact absurd rfl hne
    · rfl

/-- Witness of C21: the softlock of bob sets the end condition and the end
player and nothing else; the call on the test game, which goes on, changes
nothing. -/
theorem CheckEnd_frame_effect_witness :
    CheckEnd testEnv softlockGame
        = some (true, { softlockGame with EndCondition := 9, EndPlayer := 1 }) ∧
      (({ softlockGame with EndCondition := 9, EndPlayer := 1 } : Game).EndPlayer
          ≠ softlockGame.EndPlayer →
        ({ softlockGame with EndCondition := 9, EndPlayer := 1 } : Game).EndCondition
          = testEnv.EndConditionAllOrNothingSoftlock) ∧
      ({ softlockGame with EndCondition := 9, EndPlayer := 1 } : Game).EndCondition
        ≠ testEnv.EndConditionInProgress ∧
      (∀ g', CheckEnd testEnv testGame = some (false, g') → g' = testGame) :=
  ⟨by decide,
   (CheckEnd_frame_effect testEnv softlockGame
      { softlockGame with EndCondition := 9, EndPlayer := 1 } true (by decide)).2.2.2.2,
   (CheckEnd_frame_effect testEnv softlockGame
      { softlockGame with EndCondition := 9, EndPlayer := 1 } true (by decide)).2.2.2.1
      (by decide) (by decide) rfl,
   fun g' h => (CheckEnd_frame_effect testEnv testGame g' false h).2.2.1 rfl⟩

/-- The Go index expression faults exactly outside `0 <= i < len(xs)`. -/
theorem goIndex_eq_none_iff {α : Type} (xs : List α) (i : Int) :
    goIndex xs i = none ↔ ¬ (0 ≤ i ∧ i < (xs.length : Int)) := by
  unfold goIndex
  split_ifs with hneg
  · constructor
    · intro _ hc
      omega
    · intro _
      rfl
  · rw [List.getElem?_eq_none_iff]
    constructor
    · intro hle hc
      omega
    · intro hc
      by_contra hlt
      apply hc
      omega

/-- The guard of rule 5 faults exactly in all-or-nothing mode with the active
player index out of range. -/
theorem softlockGuard_eq_none_iff (env : Env) (g : Game) :
    CheckEnd.softlockGuard env g = none ↔
      g.Options.AllOrNothing = true ∧ ¬ activePlayerInRange g := by
  unfold CheckEnd.softlockGuard activePlayerInRange
  simp only []
  rw [← goIndex_eq_none_iff]
  split_ifs with ha
  · split
    · rename_i hn
      simp [ha, hn]
    · rename_i p hp
      simp [hp]
  · simp [ha]

/-- `CheckEnd` faults exactly when rules 1-4 do not match, the game is in
all-or-nothing mode and the active player index is out of range. -/
theorem CheckEnd_eq_none_iff (env : Env) (g : Game) :
    CheckEnd env g = none ↔
      g.Options.AllOrNothing = true ∧ rulesOneToFourIdle env g ∧
        ¬ activePlayerInRange g := by
  unfold rulesOneToFourIdle
  by_cases h1 : setByAction env g.EndCondition
  · rw [CheckEnd_of_setByAction env g h1]
    simp [h1]
  by_cases h2 : g.Strikes = env.MaxStrikeNum
  · rw [CheckEnd_of_strikes env g h1 h2]
    simp [h2]
  by_cases h3 : g.Options.Speedrun = true ∧ g.MaxScore < variantMaxScore env g
  · rw [CheckEnd_of_speedrun env g h1 h2 h3]
    simp only [reduceCtorEq, false_iff]
    rintro ⟨-, ⟨-, -, hn, -⟩, -⟩
    exact hn h3
  by_cases h4 : g.Options.AllOrNothing = true ∧ g.MaxScore < variantMaxScore env g
  · rw [CheckEnd_of_allOrNothing env g h1 h2 h3 h4]
    simp only [reduceCtorEq, false_iff]
    rintro ⟨-, ⟨-, -, -, hn⟩, -⟩
    exact hn h4
  constructor
  · intro hnone
    rw [CheckEnd_past_fail env g h1 h2 h3 h4] at hnone
    split at hnone
    · rename_i hg
      obtain ⟨ha, hr⟩ := (softlockGuard_eq_none_iff env g).mp hg
      exact ⟨ha, ⟨h1, h2, h3, h4⟩, hr⟩
    · rename_i hg
      split at hnone
      · rename_i hp
        obtain ⟨-, p, hp', -⟩ := (softlockGuard_true_iff env g).mp hg
        rw [hp] at hp'
        simp at hp'
      · simp at hnone
    · simp at hnone
  · rintro ⟨ha, -, hr⟩
    exact CheckEnd_of_guard_fault env g h1 h2 h3 h4
      ((softlockGuard_eq_none_iff env g).mpr ⟨ha, hr⟩)

/-- C22: with `0 <= ActivePlayerIndex < len(Players)` a call of `CheckEnd`
completes; it faults exactly when the `Players` lookup is reached (the game is
in all-or-nothing mode and rules 1-4 do not match) with the index out of
range; so it faults on a freshly made all-or-nothing game, whose list of
players is empty, when rules 1-4 do not match there. -/
theorem CheckEnd_totality (env : Env) (g : Game) :
    ((0 ≤ g.ActivePlayerIndex ∧ g.ActivePlayerIndex < (g.Players.length : Int)) →
      ∃ b g', CheckEnd env g = some (b, g')) ∧
    (CheckEnd env g = none ↔
      g.Options.AllOrNothing = true ∧ rulesOneToFourIdle env g ∧
        ¬ (0 ≤ g.ActivePlayerIndex ∧ g.ActivePlayerIndex < (g.Players.length : Int))) ∧
    (∀ (k : Constants) (t : table), g = newGame k t → t.Options.AllOrNothing = true →
      rulesOneToFourIdle env g → g.Players = [] ∧ CheckEnd env g = none) := by
  refine ⟨fun hr => ?_, CheckEnd_eq_none_iff env g, fun k t hg ha h14 => ?_⟩
  · cases hc : CheckEnd env g with
    | none => exact absurd hr ((CheckEnd_eq_none_iff env g).mp hc).2.2
    | some r => exact ⟨r.1, r.2, rfl⟩
  · have hplayers : g.Players = [] := by
      rw [hg]
      unfold newGame
      simp only []
      split_ifs <;> rfl
    have hopts : g.Options = t.Options := by
      rw [hg]
      unfold newGame
      simp only []
      split_ifs <;> rfl
    refine ⟨hplayers, (CheckEnd_eq_none_iff env g).mpr ⟨by rw [hopts]; exact ha, h14, ?_⟩⟩
    unfold activePlayerInRange
    rw [hplayers]
    simp only [List.length_nil, Nat.cast_zero]
    omega

/-- Witness of C22: the test game, with alice to play, completes; the freshly
made all-or-nothing game of the five-suit table faults. -/
theorem CheckEnd_totality_witness :
    (0 ≤ testGame.ActivePlayerIndex ∧
      testGame.ActivePlayerIndex < (testGame.Players.length : Int)) ∧
    (∃ b g', CheckEnd testEnv testGame = some (b, g')) ∧
    rulesOneToFourIdle testEnv (newGame testConstants allOrNothingTable) ∧
    (newGame testConstants allOrNothingTable).Players = [] ∧
    CheckEnd testEnv (newGame testConstants allOrNothingTable) = none :=
  ⟨by decide,
   (CheckEnd_totality testEnv testGame).1 (by decide),
   ⟨by decide, by decide, by decide, by decide⟩,
   (CheckEnd_totality testEnv (newGame testConstants allOrNothingTable)).2.2
     testConstants allOrNothingTable rfl rfl
     ⟨by decide, by decide, by decide, by decide⟩⟩

/-! ## The tally of maximum scores -/

/-- Adding one at a position of a list adds one to its sum. -/
theorem sum_set_succ : ∀ (xs : List Int) (j : Nat) (count : Int),
    xs[j]? = some count → (xs.set j (count + 1)).sum = xs.sum + 1 := by
  intro xs
  induction xs with
  | nil => intro j count h; simp at h
  | cons x rest ih =>
    intro j count h
    cases j with
    | zero =>
      simp only [List.getElem?_cons_zero, Option.some.injEq] at h
      subst h
      simp only [List.set_cons_zero, List.sum_cons]
      omega
    | succ j =>
      simp only [List.getElem?_cons_succ] at h
      simp only [List.set_cons_succ, List.sum_cons, ih j count h]
      omega

/-- The loop over the best scores of a variant, run from position `n` on a list
that fits in the five places: it completes, and both counters go up by the
number of best scores equal to the maximum score. -/
theorem bestScoresLoop_spec (maxScore : Int) :
    ∀ (scores : List httpmain.BestScore) (n : Nat) (tally : httpmain.Tally),
      tally.numMaxScoresPerType.length = 5 → n + scores.length ≤ 5 →
      ∃ tally', httpmain.stats.bestScoresLoop maxScore (scores.enumFrom n) tally
          = Except.ok tally' ∧
        tally'.numMaxScoresPerType.length = 5 ∧
        tally'.numMaxScores = tally.numMaxScores
          + (scores.countP fun bestScore => decide (bestScore.Score = maxScore) : Nat) ∧
        tally'.numMaxScoresPerType.sum = tally.numMaxScoresPerType.sum
          + (scores.countP fun bestScore => decide (bestScore.Score = maxScore) : Nat) := by
  intro scores
  induction scores with
  | nil =>
    intro n tally hlen _
    exact ⟨tally, rfl, hlen, by simp, by simp⟩
  | cons bestScore rest ih =>
    intro n tally hlen hfit
    simp only [List.length_cons] at hfit
    simp only [List.enumFrom, httpmain.stats.bestScoresLoop]
    by_cases hmax : bestScore.Score = maxScore
    · rw [if_pos hmax]
      have hn : n < tally.numMaxScoresPerType.length := by omega
      have hget : tally.numMaxScoresPerType[n]? = some (tally.numMaxScoresPerType[n]) :=
        List.getElem?_eq_getElem hn
      rw [hget]
      simp only []
      obtain ⟨tally', hrun, hlen', hnum, hsum⟩ := ih (n + 1)
        { numMaxScores := tally.numMaxScores + 1
          numMaxScoresPerType :=
            tally.numMaxScoresPerType.set n (tally.numMaxScoresPerType[n] + 1) }
        (by simp only [List.length_set]; exact hlen) (by omega)
      refine ⟨tally', hrun, hlen', ?_, ?_⟩
      · rw [hnum, List.countP_cons_of_pos _ _ (by simpa using hmax)]
        simp only [Nat.cast_add, Nat.cast_one]
        omega
      · rw [hsum, sum_set_succ _ _ _ hget,
          List.countP_cons_of_pos _ _ (by simpa using hmax)]
        simp only [Nat.cast_add, Nat.cast_one]
        omega
    · rw [if_neg hmax]
      obtain ⟨tally', hrun, hlen', hnum, hsum⟩ := ih (n + 1) tally hlen (by omega)
      refine ⟨tally', hrun, hlen', ?_, ?_⟩
      · rw [hnum, List.countP_cons_of_neg _ _ (by simpa using hmax)]
      · rw [hsum, List.countP_cons_of_neg _ _ (by simpa using hmax)]

/-- A variant has at most five best scores equal to its maximum score when its
list of best scores has at most five entries. -/
theorem maxScoreEntries_le_five (k : Constants)
    (GetVariant : String → Option httpmain.VariantWithID)
    (statsMap : Int → Option httpmain.VariantStatsRow) (name : String)
    (hfive : ∀ variant row, GetVariant name = some variant →
      statsMap variant.ID = some row → row.BestScores.length ≤ 5) :
    maxScoreEntries k GetVariant statsMap name ≤ 5 := by
  unfold maxScoreEntries
  split
  · omega
  · rename_i variant hv
    split
    · omega
    · rename_i row hr
      exact le_trans (List.countP_le_length _) (hfive variant row hv hr)

/-- The loop over the names of the variants: it never faults on an index; it
completes when every lookup of a variant succeeds; and when it completes both
counters have gone up by the number of best scores equal to the maximum
score of their variant. -/
theorem variantsLoop_spec (k : Constants)
    (GetVariant : String → Option httpmain.VariantWithID)
    (statsMap : Int → Option httpmain.VariantStatsRow) :
    ∀ (names : List String) (tally : httpmain.Tally),
      tally.numMaxScoresPerType.length = 5 →
      (∀ name ∈ names, ∀ variant row, GetVariant name = some variant →
        statsMap variant.ID = some row → row.BestScores.length ≤ 5) →
      (∀ j, httpmain.stats.variantsLoop k GetVariant statsMap names tally
        ≠ Except.error (httpmain.StatsAbort.indexOutOfRange j)) ∧
      ((∀ name ∈ names, (GetVariant name).isSome = true) →
        ∃ tally', httpmain.stats.variantsLoop k GetVariant statsMap names tally
          = Except.ok tally') ∧
      (∀ tally', httpmain.stats.variantsLoop k GetVariant statsMap names tally
          = Except.ok tally' →
        tally'.numMaxScoresPerType.length = 5 ∧
        tally'.numMaxScores = tally.numMaxScores
          + (totalMaxScoreEntries k GetVariant statsMap names : Nat) ∧
        tally'.numMaxScoresPerType.sum = tally.numMaxScoresPerType.sum
          + (totalMaxScoreEntries k GetVariant statsMap names : Nat)) := by
  intro names
  induction names with
  | nil =>
    intro tally hlen _
    refine ⟨fun j h => ?_, fun _ => ⟨tally, rfl⟩, fun tally' h => ?_⟩
    · simp [httpmain.stats.variantsLoop] at h
    · simp only [httpmain.stats.variantsLoop, Except.ok.injEq] at h
      subst h
      simp [totalMaxScoreEntries, hlen]
  | cons name rest ih =>
    intro tally hlen hfive
    have hrest : ∀ name ∈ rest, ∀ variant row, GetVariant name = some variant →
        statsMap variant.ID = some row → row.BestScores.length ≤ 5 :=
      fun n hn => hfive n (List.mem_cons_of_mem _ hn)
    have htotal : totalMaxScoreEntries k GetVariant statsMap (name :: rest)
        = maxScoreEntries k GetVariant statsMap name
          + totalMaxScoreEntries k GetVariant statsMap rest := by
      simp [totalMaxScoreEntries]
    cases hv : GetVariant name with
    | none =>
      simp only [httpmain.stats.variantsLoop, hv]
      refine ⟨fun j h => ?_, fun hall => ?_, fun tally' h => ?_⟩
      · simp at h
      · have := hall name (List.mem_cons_self _ _)
        rw [hv] at this
        simp at this
      · simp at h
    | some variant =>
      cases hr : statsMap variant.ID with
      | none =>
        have hentries : maxScoreEntries k GetVariant statsMap name = 0 := by
          simp [maxScoreEntries, hv, hr]
        simp only [httpmain.stats.variantsLoop, hv, hr]
        obtain ⟨i1, i2, i3⟩ := ih tally hlen hrest
        refine ⟨i1, fun hall => i2 (fun n hn => hall n (List.mem_cons_of_mem _ hn)),
          fun tally' h => ?_⟩
        rw [htotal, hentries]
        simpa using i3 tally' h
      | some row =>
        have hentries : maxScoreEntries k GetVariant statsMap name
            = row.BestScores.countP fun bestScore =>
                decide (bestScore.Score
                  = wrapInt64 ((variant.Suits.length : Int) * k.PointsPerSuit)) := by
          simp [maxScoreEntries, hv, hr]
        obtain ⟨mid, hrun, hlenmid, hnum, hsum⟩ :=
          bestScoresLoop_spec (wrapInt64 ((variant.Suits.length : Int) * k.PointsPerSuit))
            row.BestScores 0 tally hlen
            (by
              have := hfive name (List.mem_cons_self _ _) variant row hv hr
              omega)
        have hrun' : httpmain.stats.bestScoresLoop
            (wrapInt64 ((variant.Suits.length : Int) * k.PointsPerSuit))
            row.BestScores.enum tally = Except.ok mid := hrun
        simp only [httpmain.stats.variantsLoop, hv, hr, hrun']
        obtain ⟨i1, i2, i3⟩ := ih mid hlenmid hrest
        refine ⟨i1, fun hall => i2 (fun n hn => hall n (List.mem_cons_of_mem _ hn)),
          fun tally' h => ?_⟩
        obtain ⟨j1, j2, j3⟩ := i3 tally' h
        refine ⟨j1, ?_, ?_⟩
        · rw [j2, hnum, htotal, hentries]
          simp only [Nat.cast_add]
          omega
        · rw [j3, hsum, htotal, hentries]
          simp only [Nat.cast_add]
          omega

theorem totalMaxScoreEntries_le (k : Constants)
    (GetVariant : String → Option httpmain.VariantWithID)
    (statsMap : Int → Option httpmain.VariantStatsRow) :
    ∀ (names : List String),
      (∀ name ∈ names, ∀ variant row, GetVariant name = some variant →
        statsMap variant.ID = some row → row.BestScores.length ≤ 5) →
      totalMaxScoreEntries k GetVariant statsMap names ≤ 5 * names.length := by
  intro names
  induction names with
  | nil => intro _; simp [totalMaxScoreEntries]
  | cons name rest ih =>
    intro hfive
    have h1 := maxScoreEntries_le_five k GetVariant statsMap name
      (hfive name (List.mem_cons_self _ _))
    have h2 := ih (fun n hn => hfive n (List.mem_cons_of_mem _ hn))
    unfold totalMaxScoreEntries at h2 ⊢
    simp only [List.map_cons, List.sum_cons, List.length_cons]
    omega

/-- C23: when the list of best scores of every variant has at most 5 entries,
the indexing of `numMaxScoresPerType` stays in bounds; the loops run through
when every variant name is known; and on completion `numMaxScoresPerType` has
5 entries whose sum is `numMaxScores`, which is the number of best scores, over
the variant names and the places in their lists, equal to
`len(variant.Suits) * PointsPerSuit` for their variant, and is at most 5 times
the number of variant names. -/
theorem stats_tally_consistent (k : Constants) (GetVariantNames : List String)
    (GetVariant : String → Option httpmain.VariantWithID)
    (statsMap : Int → Option httpmain.VariantStatsRow)
    (hfive : ∀ name ∈ GetVariantNames, ∀ variant row, GetVariant name = some variant →
      statsMap variant.ID = some row → row.BestScores.length ≤ 5) :
    (∀ j, httpmain.stats k GetVariantNames GetVariant statsMap
      ≠ Except.error (httpmain.StatsAbort.indexOutOfRange j)) ∧
    ((∀ name ∈ GetVariantNames, (GetVariant name).isSome = true) →
      ∃ tally, httpmain.stats k GetVariantNames GetVariant statsMap = Except.ok tally) ∧
    (∀ tally, httpmain.stats k GetVariantNames GetVariant statsMap = Except.ok tally →
      tally.numMaxScoresPerType.length = 5 ∧
      tally.numMaxScores = tally.numMaxScoresPerType.sum ∧
      tally.numMaxScores
        = (totalMaxScoreEntries k GetVariant statsMap GetVariantNames : Nat) ∧
      tally.numMaxScores ≤ 5 * (GetVariantNames.length : Int)) := by
  obtain ⟨h1, h2, h3⟩ := variantsLoop_spec k GetVariant statsMap GetVariantNames
    { numMaxScores := 0, numMaxScoresPerType := List.replicate 5 0 } rfl hfive
  refine ⟨h1, h2, fun tally h => ?_⟩
  obtain ⟨hlen, hnum, hsum⟩ := h3 tally h
  have hzero : (List.replicate 5 (0 : Int)).sum = 0 := by decide
  simp only [hzero, zero_add] at hnum hsum
  have hle := totalMaxScoreEntries_le k GetVariant statsMap GetVariantNames hfive
  refine ⟨hlen, by rw [hnum, hsum], hnum, ?_⟩
  rw [hnum]
  omega

/-- Witness of C23: with statistics for "No Variant" only, whose best scores
for 2, 4 and 6 players are the maximum 25, the counters end at 3 and
1, 0, 1, 0, 1. -/
theorem stats_tally_consistent_witness :
    httpmain.stats testConstants ["No Variant", "Six Suits"] testGetVariant testStatsMap
        = Except.ok { numMaxScores := 3, numMaxScoresPerType := [1, 0, 1, 0, 1] } ∧
      totalMaxScoreEntries testConstants testGetVariant testStatsMap
          ["No Variant", "Six Suits"] = 3 ∧
      (∀ tally,
        httpmain.stats testConstants ["No Variant", "Six Suits"] testGetVariant testStatsMap
            = Except.ok tally →
        tally.numMaxScoresPerType.length = 5 ∧
        tally.numMaxScores = tally.numMaxScoresPerType.sum ∧
        tally.numMaxScores
          = (totalMaxScoreEntries testConstants testGetVariant testStatsMap
              ["No Variant", "Six Suits"] : Nat) ∧
        tally.numMaxScores ≤ 5 * ((["No Variant", "Six Suits"] : List String).length : Int)) :=
  ⟨rfl, by decide,
   (stats_tally_consistent testConstants ["No Variant", "Six Suits"] testGetVariant
      testStatsMap
      (by
        intro name _ variant row _ hrow
        unfold testStatsMap at hrow
        split_ifs at hrow
        simp only [Option.some.injEq] at hrow
        subst hrow
        decide)).2.2⟩

end Hanabi
